import Mathlib

/-! Cosmographia: time controls and the solar-system loader

A shallow embedding of `trunk/src/main/Cosmographia.cpp` (with the accessors of
`src/main/UniverseView.h`) and theorems about it.

Conventions of the embedding.

* `double` is an arbitrary linearly ordered field `K` (exact arithmetic); every definition is
  computable, so it runs on `ℚ`, and every theorem also holds on `ℝ`.  For the claim that
  speaks of every `double`, `slower` and `slower2` are given a second time with the rounding
  of IEEE 754 binary64 (`slowerBinary64`, `slower2Binary64`).
* A pointer is an `Option` (`none` is `NULL`).  A `vesta::Trajectory*` is a `Ptr`, which has a
  third value: `loadKeplerianTrajectory` ends without a `return` statement on its last path, and
  what its caller then holds is not determined by the source.  A function that goes on with
  such a pointer has undefined behaviour: its call is a `Run` with no result.
* The engine (`vesta`), Qt and QJson are not part of the repository.  Their objects are records
  of the members that the code of this file assigns, and their functions are parameters
  (`Vesta`, `QtConv`, `GregorianDateApi`, `Desktop`).
* `qDebug()` output is not represented.
-/

set_option autoImplicit false

/-! ## Pointers and return values -/

/-- Value of a pointer variable: `null`, the address of an object `obj a`, or `indeterminate`
when it was initialised from a call that left its function without a `return` statement. -/
inductive Ptr (α : Type) where
  | null
  | obj (a : α)
  | indeterminate
  deriving DecidableEq, Repr

/-- How a call of a pointer-returning function ends: with `return p;` (`value p`), or at the
closing brace of the function with no `return` (`fellOff c`, where `c` is the object held by
the last local variable). -/
inductive Returned (α : Type) where
  | value (p : Ptr α)
  | fellOff (constructed : α)
  deriving DecidableEq, Repr

/-- What the caller holds after the call. -/
def Returned.received {α : Type} : Returned α → Ptr α
  | .value p => p
  | .fellOff _ => .indeterminate

/-- A call of a function of the loader: it returns a result, or its behaviour is undefined
because it goes on after a call that reached its closing brace without `return`; nothing is
known of the program from there on. -/
inductive Run (α : Type) where
  | returns (result : α)
  | undefined
  deriving DecidableEq, Repr

/-! ## Engine objects (`vesta`) -/

namespace vesta

/-- The members of `vesta::OrbitalElements` that `loadKeplerianTrajectory` assigns. -/
structure OrbitalElements (K : Type) where
  eccentricity : K
  inclination : K
  meanMotion : K
  longitudeOfAscendingNode : K
  argumentOfPeriapsis : K
  meanAnomalyAtEpoch : K
  deriving DecidableEq, Repr

/-- A `vesta::Trajectory` object: a `KeplerianTrajectory` with its elements, or a trajectory
made by the engine itself (such as the one a new `Arc` starts with). -/
inductive Trajectory (K : Type) where
  | keplerian (elements : OrbitalElements K)
  | engine (handle : Nat)
  deriving DecidableEq, Repr

/-- A `vesta::RotationModel` object; none is constructed in this file. -/
structure RotationModel where
  handle : Nat
  deriving DecidableEq, Repr

/-- A `vesta::InertialFrame` object; none is constructed in this file. -/
structure InertialFrame where
  handle : Nat
  deriving DecidableEq, Repr

/-- A `vesta::Frame` object: an inertial frame, or a frame made by the engine itself. -/
inductive Frame where
  | inertial (f : InertialFrame)
  | engine (handle : Nat)
  deriving DecidableEq, Repr

/-- The members of `vesta::Arc` that have a setter called in `loadArc`, and the body frame. -/
structure Arc (K : Type) where
  m_trajectory : Ptr (Trajectory K)
  m_rotationModel : Option RotationModel
  m_trajectoryFrame : Option Frame
  m_bodyFrame : Option Frame
  deriving DecidableEq, Repr

/-- Engine operation `Arc::setTrajectory`. -/
def Arc.setTrajectory {K : Type} (arc : Arc K) (t : Ptr (Trajectory K)) : Arc K :=
  { arc with m_trajectory := t }

/-- Engine operation `Arc::setRotationModel`. -/
def Arc.setRotationModel {K : Type} (arc : Arc K) (rm : RotationModel) : Arc K :=
  { arc with m_rotationModel := some rm }

/-- Engine operation `Arc::setTrajectoryFrame`. -/
def Arc.setTrajectoryFrame {K : Type} (arc : Arc K) (f : Frame) : Arc K :=
  { arc with m_trajectoryFrame := some f }

/-- A `vesta::Body`, seen through its chronology: the arcs added to it, in order. -/
structure Body (K : Type) where
  chronology : List (Arc K)
  deriving DecidableEq, Repr

/-- Engine operation `new vesta::Body()`: a body whose chronology has no arc yet. -/
def Body.new {K : Type} : Body K := ⟨[]⟩

/-- Engine operation `body->chronology()->addArc(arc)`. -/
def Body.addArc {K : Type} (body : Body K) (arc : Arc K) : Body K :=
  ⟨body.chronology ++ [arc]⟩

end vesta

/-- The engine functions used by the loader (`vesta/Units.h`, `vesta/Arc.h`), which are not
part of the repository. -/
structure Vesta (K : Type) where
  /-- Stands for `vesta::toRadians`. -/
  toRadians : K → K
  /-- Stands for `vesta::daysToSeconds`. -/
  daysToSeconds : K → K
  /-- State of the object made by `new vesta::Arc()`. -/
  newArc : vesta.Arc K

/-- The part of `vesta::GregorianDate` used by `backYear` and `forwardYear`; `D` is the type of
a date object. -/
structure GregorianDateApi (K D : Type) where
  /-- Stands for `GregorianDate::UTCDateFromTDBSec`. -/
  UTCDateFromTDBSec : K → D
  /-- Stands for `GregorianDate(year, month, day, hour, minute, second)`. -/
  mk6 : Int → Nat → Nat → Nat → Nat → Nat → D
  /-- Stands for `GregorianDate::toTDBSec`. -/
  toTDBSec : D → K
  year : D → Int
  month : D → Nat
  day : D → Nat
  hour : D → Nat
  minute : D → Nat
  second : D → Nat

/-! ## The 3D view (`UniverseView.h`) -/

/-- The members of `UniverseView` that the time controls and the loader could reach. -/
structure UniverseView (K : Type) where
  m_universe : List (vesta.Body K)
  m_catalog : List (String × vesta.Body K)
  m_simulationTime : K
  m_timeScale : K
  m_paused : Bool
  m_selectedBody : Option (vesta.Body K)
  deriving DecidableEq, Repr

namespace UniverseView

variable {K : Type}

/-- Source function `UniverseView::isPaused` (UniverseView.h:103). -/
def isPaused (v : UniverseView K) : Bool := v.m_paused

/-- Source function `UniverseView::timeScale` (UniverseView.h:108). -/
def timeScale (v : UniverseView K) : K := v.m_timeScale

/-- Source function `UniverseView::simulationTime` (UniverseView.h:116). -/
def simulationTime (v : UniverseView K) : K := v.m_simulationTime

/-- Modelled from the spec: the body of the slot `UniverseView::setTimeScale` is missing from
the sources (UniverseView.h:224 only declares it); UniverseView.h:76 makes it the WRITE accessor
of the property `timeScale`, whose READ accessor returns `m_timeScale`, so it stores its
argument there. -/
def setTimeScale (v : UniverseView K) (scale : K) : UniverseView K :=
  { v with m_timeScale := scale }

/-- Modelled from the spec: the body of the slot `UniverseView::setSimulationTime` is missing
from the sources (UniverseView.h:225 only declares it); it stores its argument in
`m_simulationTime`, the member that `simulationTime()` returns. -/
def setSimulationTime (v : UniverseView K) (tsec : K) : UniverseView K :=
  { v with m_simulationTime := tsec }

end UniverseView

/-! ## The main window: time controls (Cosmographia.cpp:311-379) -/

/-- The main window, seen through its 3D view. -/
structure Cosmographia (K : Type) where
  m_view3d : UniverseView K
  deriving DecidableEq, Repr

namespace Cosmographia

variable {K : Type} [LinearOrderedField K]

/-- Source function `Cosmographia::faster` (Cosmographia.cpp:311-320). -/
def faster (app : Cosmographia K) : Cosmographia K :=
  let t := app.m_view3d.timeScale * 10.0
  let t := if t < -1.0e7 then -1.0e7 else if t > 1.0e7 then 1.0e7 else t
  { app with m_view3d := app.m_view3d.setTimeScale t }

/-- Source function `Cosmographia::slower` (Cosmographia.cpp:323-332), in exact arithmetic. -/
def slower (app : Cosmographia K) : Cosmographia K :=
  let t := app.m_view3d.timeScale * 0.1
  let t := if t > 0.0 then max 1.0e-3 t else if t < 0.0 then min (-1.0e-3) t else t
  { app with m_view3d := app.m_view3d.setTimeScale t }

/-- Source function `Cosmographia::faster2` (Cosmographia.cpp:335-344). -/
def faster2 (app : Cosmographia K) : Cosmographia K :=
  let t := app.m_view3d.timeScale * 2.0
  let t := if t < -1.0e7 then -1.0e7 else if t > 1.0e7 then 1.0e7 else t
  { app with m_view3d := app.m_view3d.setTimeScale t }

/-- Source function `Cosmographia::slower2` (Cosmographia.cpp:347-356), in exact arithmetic. -/
def slower2 (app : Cosmographia K) : Cosmographia K :=
  let t := app.m_view3d.timeScale * 0.5
  let t := if t > 0.0 then max 1.0e-3 t else if t < 0.0 then min (-1.0e-3) t else t
  { app with m_view3d := app.m_view3d.setTimeScale t }

/-- Source function `Cosmographia::backYear` (Cosmographia.cpp:359-364). -/
def backYear {D : Type} (cal : GregorianDateApi K D) (app : Cosmographia K) : Cosmographia K :=
  let d := cal.UTCDateFromTDBSec app.m_view3d.simulationTime
  let shifted := cal.mk6 (cal.year d - 1) (cal.month d) (cal.day d) (cal.hour d)
    (cal.minute d) (cal.second d)
  { app with m_view3d := app.m_view3d.setSimulationTime (cal.toTDBSec shifted) }

/-- Source function `Cosmographia::forwardYear` (Cosmographia.cpp:367-372). -/
def forwardYear {D : Type} (cal : GregorianDateApi K D) (app : Cosmographia K) : Cosmographia K :=
  let d := cal.UTCDateFromTDBSec app.m_view3d.simulationTime
  let shifted := cal.mk6 (cal.year d + 1) (cal.month d) (cal.day d) (cal.hour d)
    (cal.minute d) (cal.second d)
  { app with m_view3d := app.m_view3d.setSimulationTime (cal.toTDBSec shifted) }

/-- Source function `Cosmographia::reverseTime` (Cosmographia.cpp:375-379). -/
def reverseTime (app : Cosmographia K) : Cosmographia K :=
  { app with m_view3d := app.m_view3d.setTimeScale (-app.m_view3d.timeScale) }

end Cosmographia

/-! ## Qt values (`QVariant`, `QVariantMap`) -/

/-- The values of `QVariant::Type` that a JSON document produces.  `Double` stands for every
numeric type: the code of this file never tells them apart. -/
inductive QVariantType where
  | Invalid
  | Bool
  | Double
  | String
  | List
  | Map
  deriving DecidableEq, Repr

/-- A `QVariant` as the JSON parser builds it: null, a boolean, a number, a string, a list, or
a map (an association list; a key is looked up from the front). -/
inductive QVariant (K : Type) where
  | invalid
  | bool (b : Bool)
  | number (x : K)
  | string (s : String)
  | list (items : List (QVariant K))
  | map (entries : List (String × QVariant K))

/-- The type `QVariantMap`, that is `QMap<QString, QVariant>`. -/
abbrev QVariantMap (K : Type) := List (String × QVariant K)

/-- The type `QVariantList`, that is `QList<QVariant>`. -/
abbrev QVariantList (K : Type) := List (QVariant K)

/-- The conversions of Qt between numbers and text, which are not part of the repository. -/
structure QtConv (K : Type) where
  /-- Stands for `QString::number`, the text of a numeric `QVariant`. -/
  numberToString : K → String
  /-- Stands for `QString::toDouble`: the number a text denotes, if it denotes one. -/
  stringToDouble : String → Option K
  /-- The text of a number has no upper-case letter (digits, sign, point, `e`, `inf`, `nan`). -/
  numberToString_lower : ∀ x c, c ∈ (numberToString x).toList → c.isUpper = false

namespace QVariant

variable {K : Type}

/-- Qt operation `QVariant::type`. -/
def type : QVariant K → QVariantType
  | .invalid => .Invalid
  | .bool _ => .Bool
  | .number _ => .Double
  | .string _ => .String
  | .list _ => .List
  | .map _ => .Map

/-- Qt operation `QVariant::toString`: the string itself, the text of a boolean or of a
number, and the empty string for null, lists and maps. -/
def toString (qt : QtConv K) : QVariant K → String
  | .string s => s
  | .bool b => if b then "true" else "false"
  | .number x => qt.numberToString x
  | _ => ""

/-- Qt operation `QVariant::toDouble(&ok)`: `some value` when `ok` is set. -/
def toDouble [OfNat K 0] [OfNat K 1] (qt : QtConv K) : QVariant K → Option K
  | .number x => some x
  | .bool b => some (if b then 1 else 0)
  | .string s => qt.stringToDouble s
  | _ => none

/-- Qt operation `QVariant::toMap`: the map itself, and the empty map for every other value. -/
def toMap : QVariant K → QVariantMap K
  | .map entries => entries
  | _ => []

/-- Qt operation `QVariant::toList`: the list itself, and the empty list for every other value. -/
def toList : QVariant K → QVariantList K
  | .list items => items
  | _ => []

end QVariant

namespace QVariantMap

variable {K : Type}

/-- Qt operation `QMap::value(key)`: the value stored under the key, a null `QVariant` when
there is none. -/
def value (m : QVariantMap K) (key : String) : QVariant K :=
  match List.lookup key m with
  | some v => v
  | none => .invalid

/-- Qt operation `QMap::contains(key)`. -/
def contains (m : QVariantMap K) (key : String) : Bool :=
  (List.lookup key m).isSome

/-- Qt operation `QMap::empty()`. -/
def empty (m : QVariantMap K) : Bool := m.isEmpty

/-- Qt operation `QMap::operator[](key)` on a non-const map: the value stored under the key;
when there is none a null `QVariant` is stored under it first.  Returns the map afterwards and
the value. -/
def index (m : QVariantMap K) (key : String) : QVariantMap K × QVariant K :=
  match List.lookup key m with
  | some v => (m, v)
  | none => (m ++ [(key, .invalid)], .invalid)

end QVariantMap

/-! ## The loader (Cosmographia.cpp:472-655) -/

section Loader

variable {K : Type} [LinearOrderedField K]

/-- Source function `doubleValue` (Cosmographia.cpp:472-484).  The C++ default of
`defaultValue` is `0.0`; the calls that leave it out pass `0.0` here. -/
def doubleValue (qt : QtConv K) (v : QVariant K) (defaultValue : K) : K :=
  match v.toDouble qt with
  | some value => value
  | none => defaultValue

/-- Source function `loadFixedTrajectory` (Cosmographia.cpp:486-490). -/
def loadFixedTrajectory (_info : QVariantMap K) : Ptr (vesta.Trajectory K) :=
  .null

/-- Source function `loadKeplerianTrajectory` (Cosmographia.cpp:493-520).  The last statement
constructs the trajectory; no `return` follows it. -/
def loadKeplerianTrajectory (v : Vesta K) (qt : QtConv K) (info : QVariantMap K) :
    Returned (vesta.Trajectory K) :=
  let sma := doubleValue qt (info.value "semiMajorAxis") 0.0
  if sma ≤ 0.0 then .value .null
  else
    let period := doubleValue qt (info.value "period") 0.0
    if period ≤ 0.0 then .value .null
    else
      let elements : vesta.OrbitalElements K :=
        { eccentricity := doubleValue qt (info.value "eccentricity") 0.0
          inclination := v.toRadians (doubleValue qt (info.value "eccentricity") 0.0)
          meanMotion := v.toRadians 360.0 / v.daysToSeconds period
          longitudeOfAscendingNode :=
            v.toRadians (doubleValue qt (info.value "ascendingNode") 0.0)
          argumentOfPeriapsis :=
            v.toRadians (doubleValue qt (info.value "argumentOfPeriapsis") 0.0)
          meanAnomalyAtEpoch := v.toRadians (doubleValue qt (info.value "meanAnomaly") 0.0) }
      .fellOff (.keplerian elements)

/-- Source function `loadTrajectory` (Cosmographia.cpp:523-546). -/
def loadTrajectory (v : Vesta K) (qt : QtConv K) (map : QVariantMap K) :
    Ptr (vesta.Trajectory K) :=
  let typeData := map.value "type"
  let type := typeData.toString qt
  if type = "Fixed" then loadFixedTrajectory map
  else if type = "Keplerian" then (loadKeplerianTrajectory v qt map).received
  else .null

/-- Source function `loadFixedRotationModel` (Cosmographia.cpp:549-553). -/
def loadFixedRotationModel (_map : QVariantMap K) : Option vesta.RotationModel :=
  none

/-- Source function `loadUniformRotationModel` (Cosmographia.cpp:556-560). -/
def loadUniformRotationModel (_map : QVariantMap K) : Option vesta.RotationModel :=
  none

/-- Source function `loadRotationModel` (Cosmographia.cpp:563-586). -/
def loadRotationModel (qt : QtConv K) (map : QVariantMap K) : Option vesta.RotationModel :=
  let typeVar := map.value "type"
  let type := typeVar.toString qt
  if type = "Fixed" then loadFixedRotationModel map
  else if type = "Uniform" then loadUniformRotationModel map
  else none

/-- Source function `loadInertialFrame` (Cosmographia.cpp:589-593). -/
def loadInertialFrame (_name : String) : Option vesta.InertialFrame :=
  none

/-- Source function `loadArc` (Cosmographia.cpp:596-655).  Each block of the function is one
step on the arc; the blocks for `"center"` and for frames given as maps are empty in the
source.  When `loadTrajectory` hands back the pointer of a call that ended without `return`,
the behaviour is undefined and the call has no result.  The block for `"bodyFrame"` calls
`setTrajectoryFrame`, as the source does. -/
def loadArc (v : Vesta K) (qt : QtConv K) (map : QVariantMap K) : Run (Option (vesta.Arc K)) :=
  let arc := v.newArc
  let trajectoryData := map.value "trajectory"
  let rotationModelData := map.value "rotationModel"
  let trajectoryFrameData := map.value "trajectoryFrame"
  let bodyFrameData := map.value "bodyFrame"
  let afterTrajectory : Run (vesta.Arc K) :=
    if trajectoryData.type = .Map then
      match loadTrajectory v qt trajectoryData.toMap with
      | .null => .returns arc
      | .obj trajectory => .returns (arc.setTrajectory (.obj trajectory))
      | .indeterminate => .undefined
    else .returns arc
  match afterTrajectory with
  | .undefined => .undefined
  | .returns arc =>
    let arc :=
      if rotationModelData.type = .Map then
        match loadRotationModel qt rotationModelData.toMap with
        | some rotationModel => arc.setRotationModel rotationModel
        | none => arc
      else arc
    let arc :=
      if trajectoryFrameData.type = .String then
        match loadInertialFrame (trajectoryFrameData.toString qt) with
        | some frame => arc.setTrajectoryFrame (.inertial frame)
        | none => arc
      else arc
    let arc :=
      if bodyFrameData.type = .String then
        match loadInertialFrame (bodyFrameData.toString qt) with
        | some frame => arc.setTrajectoryFrame (.inertial frame)
        | none => arc
      else arc
    .returns (some arc)

/-- The maps on which `loadArc` reaches the end of `loadKeplerianTrajectory`: the
`"trajectory"` entry is a map of type `"Keplerian"` whose semimajor axis and period convert to
positive numbers. -/
def reachesMissingReturn (qt : QtConv K) (map : QVariantMap K) : Prop :=
  (map.value "trajectory").type = .Map ∧
  ((map.value "trajectory").toMap.value "type").toString qt = "Keplerian" ∧
  0 < doubleValue qt ((map.value "trajectory").toMap.value "semiMajorAxis") 0.0 ∧
  0 < doubleValue qt ((map.value "trajectory").toMap.value "period") 0.0

instance (qt : QtConv K) (map : QVariantMap K) : Decidable (reachesMissingReturn qt map) := by
  unfold reachesMissingReturn
  infer_instance

end Loader

/-! ## Loading a solar-system file (Cosmographia.cpp:658-730) -/

/-- What `QJson::Parser::parse` leaves behind: the value, the `ok` flag, and the position and
text of the error. -/
structure ParseResult (K : Type) where
  result : QVariant K
  parseOk : Bool
  errorLine : Int
  errorString : String

/-- The surroundings of `loadSolarSystem`, which are not part of the repository: the answer of
the file dialog, the files that can be opened for reading (with their contents), and the JSON
parser. -/
structure Desktop (K : Type) where
  /-- Stands for `QFileDialog::getOpenFileName`: the chosen name, empty when the dialog is
  cancelled. -/
  getOpenFileName : String
  /-- Stands for `QFile::open(QIODevice::ReadOnly)`: the contents of the file, `none` when it
  fails. -/
  openReadOnly : String → Option String
  /-- Stands for `QJson::Parser::parse`. -/
  parse : String → ParseResult K

/-- What a run of `loadSolarSystem` has done: the message boxes shown (title and text), the
number of `vesta::Arc` objects constructed (one by each call of `loadArc`), the bodies
constructed and not deleted, in the order of their construction, and the number of bodies
deleted. -/
structure LoadEffects (K : Type) where
  warnings : List (String × String)
  arcs : Nat
  bodies : List (vesta.Body K)
  deleted : Nat
  deriving DecidableEq, Repr

/-- A run that has done nothing. -/
def LoadEffects.nothing {K : Type} : LoadEffects K := ⟨[], 0, [], 0⟩

/-- A run that has shown one `QMessageBox::warning`. -/
def LoadEffects.warning {K : Type} (title text : String) : LoadEffects K :=
  ⟨[(title, text)], 0, [], 0⟩

namespace Cosmographia

variable {K : Type} [LinearOrderedField K]

/-- The body of the `foreach` loop of `loadSolarSystem` (Cosmographia.cpp:707-727) for one item
of the list.  It has no result when the call of `loadArc` has none. -/
def loadSolarSystemItem (v : Vesta K) (qt : QtConv K) (done : LoadEffects K)
    (body : QVariant K) : Run (LoadEffects K) :=
  if body.type ≠ .Map then .returns done
  else
    let bodyInfo := body.toMap
    let newBody : vesta.Body K := vesta.Body.new
    match loadArc v qt bodyInfo with
    | .undefined => .undefined
    | .returns none => .returns { done with arcs := done.arcs + 1, deleted := done.deleted + 1 }
    | .returns (some arc) =>
      .returns { done with arcs := done.arcs + 1, bodies := done.bodies ++ [newBody.addArc arc] }

/-- The `foreach` loop of `loadSolarSystem` (Cosmographia.cpp:706-728) from the state `done`:
the items are processed in the order of the list, and the loop has no result as soon as the
processing of an item has none. -/
def loadSolarSystemLoop (v : Vesta K) (qt : QtConv K) :
    List (QVariant K) → LoadEffects K → Run (LoadEffects K)
  | [], done => .returns done
  | body :: rest, done =>
    match loadSolarSystemItem v qt done body with
    | .undefined => .undefined
    | .returns next => loadSolarSystemLoop v qt rest next

/-- Source function `Cosmographia::loadSolarSystem` (Cosmographia.cpp:658-730): the state of
the window, to which no statement of the function assigns, and what the run has done, if its
behaviour is defined.  `tr` is taken as the identity.  The debug print of line 691 evaluates
`contents["name"]`, which stores a null value under `"name"` when the key is missing. -/
def loadSolarSystem (v : Vesta K) (qt : QtConv K) (desk : Desktop K) (app : Cosmographia K) :
    Cosmographia K × Run (LoadEffects K) :=
  let solarSystemFileName := desk.getOpenFileName
  if solarSystemFileName.isEmpty then (app, .returns .nothing)
  else
    match desk.openReadOnly solarSystemFileName with
    | none => (app, .returns (.warning "Solar System File Error" "Could not open file."))
    | some solarSystemFile =>
      let parsed := desk.parse solarSystemFile
      if !parsed.parseOk then
        (app, .returns (.warning "Solar System File Error"
          ("Line " ++ toString parsed.errorLine ++ ": " ++ parsed.errorString)))
      else
        let contents := parsed.result.toMap
        if contents.empty then (app, .returns .nothing)
        else
          let contents := (contents.index "name").1
          if !contents.contains "bodies" then (app, .returns .nothing)
          else if (contents.index "bodies").2.type ≠ .List then (app, .returns .nothing)
          else
            let bodies := (contents.index "bodies").2.toList
            (app, loadSolarSystemLoop v qt bodies .nothing)

end Cosmographia

/-! ## The time controls in binary64 arithmetic

The five time controls compute on `double`.  Where a claim speaks of every `double` and not of
exact arithmetic, `slower` and `slower2` are also embedded with the rounding of IEEE 754
binary64 (round to nearest, ties to even).  A finite binary64 number is the rational it
denotes; the two zeros are one value, and infinities and NaN are left out: the products of
`slower` and `slower2` are not larger in magnitude than the time scale they start from. -/

namespace Cosmographia

end Cosmographia

/-! ## Sample surroundings

Concrete values of the parameters, on which the theorems are instantiated. -/

/-- A sample `QtConv` on `ℚ`: every number prints as `0`, and the texts `1` and `-1` are the
only ones read as numbers. -/
def sampleQt : QtConv ℚ where
  numberToString := fun _ => "0"
  stringToDouble := fun s => if s = "1" then some 1 else if s = "-1" then some (-1) else none
  numberToString_lower := by
    intro _ c hc
    have h0 : c = '0' := by simpa using hc
    subst h0
    decide

/-- A sample engine on `ℚ`, with `355/113` in the place of pi. -/
def sampleVesta : Vesta ℚ where
  toRadians := fun d => d * (355 / 113) / 180
  daysToSeconds := fun d => d * 86400
  newArc := ⟨.obj (.engine 0), some ⟨0⟩, some (.engine 0), some (.engine 0)⟩

/-- A sample date object: the six components that the accessors return, and the microseconds. -/
structure SampleDate where
  year : Int
  month : Nat
  day : Nat
  hour : Nat
  minute : Nat
  second : Nat
  usec : Nat
  deriving DecidableEq, Repr

/-- A sample calendar on `ℚ` with years of 360 days of 86400 seconds and months of 30 days,
counted from the start of the year 2000. -/
def sampleCalendar : GregorianDateApi ℚ SampleDate where
  UTCDateFromTDBSec := fun t =>
    let s := ⌊t⌋
    { year := 2000 + s / 31104000
      month := (s % 31104000 / 2592000).toNat + 1
      day := (s % 2592000 / 86400).toNat + 1
      hour := (s % 86400 / 3600).toNat
      minute := (s % 3600 / 60).toNat
      second := (s % 60).toNat
      usec := ⌊(t - s) * 1000000⌋.toNat }
  mk6 := fun y mo d h mi s => ⟨y, mo, d, h, mi, s, 0⟩
  toTDBSec := fun d =>
    (((d.year - 2000) * 31104000 + ((d.month : Int) - 1) * 2592000 + ((d.day : Int) - 1) * 86400
      + d.hour * 3600 + d.minute * 60 + d.second : Int) : ℚ) + (d.usec : ℚ) / 1000000
  year := SampleDate.year
  month := SampleDate.month
  day := SampleDate.day
  hour := SampleDate.hour
  minute := SampleDate.minute
  second := SampleDate.second

/-- A sample window on `ℚ` with the given time scale and simulation time. -/
def sampleApp (timeScale simulationTime : ℚ) : Cosmographia ℚ :=
  ⟨{ m_universe := [], m_catalog := [], m_simulationTime := simulationTime,
     m_timeScale := timeScale, m_paused := false, m_selectedBody := none }⟩

/-- The items of a list that are maps, in the order of the list. -/
def mapItems {K : Type} : List (QVariant K) → List (QVariantMap K)
  | [] => []
  | .map entries :: rest => entries :: mapItems rest
  | _ :: rest => mapItems rest

/-! ## Auxiliary facts -/

section Aux

variable {K : Type}

/-- A text without upper-case letters is none of the type names the loaders look for. -/
theorem QtConv.numberToString_ne (qt : QtConv K) (x : K) (word : String)
    (hword : ∃ c, c ∈ word.toList ∧ c.isUpper = true) : qt.numberToString x ≠ word := by
  intro h
  obtain ⟨c, hc, hup⟩ := hword
  have := qt.numberToString_lower x c (h ▸ hc)
  simp [this] at hup

/-- The string value of a `QVariant` that is not a string is not a capitalised word. -/
theorem QVariant.toString_ne_of_type (qt : QtConv K) (d : QVariant K) (word : String)
    (hty : d.type ≠ .String) (hword : ∃ c, c ∈ word.toList ∧ c.isUpper = true) :
    d.toString qt ≠ word := by
  obtain ⟨c, hc, hup⟩ := hword
  cases d with
  | string s => exact absurd rfl hty
  | number x => exact qt.numberToString_ne x word ⟨c, hc, hup⟩
  | bool b =>
    intro h
    have hmem : c ∈ (QVariant.toString qt (QVariant.bool b)).toList := h ▸ hc
    cases b
    · have : c ∈ "false".toList := hmem
      have hlow : ∀ c' ∈ "false".toList, c'.isUpper = false := by decide
      simp [hlow c this] at hup
    · have : c ∈ "true".toList := hmem
      have hlow : ∀ c' ∈ "true".toList, c'.isUpper = false := by decide
      simp [hlow c this] at hup
  | invalid => intro h; rw [← h] at hc; simp [QVariant.toString] at hc
  | list items => intro h; rw [← h] at hc; simp [QVariant.toString] at hc
  | map entries => intro h; rw [← h] at hc; simp [QVariant.toString] at hc

/-- A key that the map does not contain has the null value. -/
theorem QVariantMap.value_of_not_contains (m : QVariantMap K) (key : String)
    (h : m.contains key = false) : m.value key = .invalid := by
  unfold QVariantMap.contains at h
  unfold QVariantMap.value
  cases hl : List.lookup key m with
  | none => rfl
  | some v => simp [hl] at h

/-- The operator `operator[]` returns what `value` returns. -/
theorem QVariantMap.index_snd (m : QVariantMap K) (key : String) :
    (m.index key).2 = m.value key := by
  unfold QVariantMap.index QVariantMap.value
  cases List.lookup key m <;> rfl

/-- The operator `operator[]` with one key leaves the lookup of every other key as it was. -/
theorem QVariantMap.lookup_index_of_ne (m : QVariantMap K) (key other : String)
    (h : other ≠ key) : List.lookup other (m.index key).1 = List.lookup other m := by
  unfold QVariantMap.index
  cases List.lookup key m with
  | some v => rfl
  | none =>
    show List.lookup other (m ++ [(key, QVariant.invalid)]) = List.lookup other m
    induction m with
    | nil =>
      have hb : (other == key) = false := by simpa using h
      simp [List.lookup, hb]
    | cons e rest ih =>
      obtain ⟨k, x⟩ := e
      by_cases hk : other = k
      · simp [List.lookup, hk]
      · simp [List.lookup, hk, ih]

end Aux

/-! ## Auxiliary facts on `loadArc` and on a whole run -/

section AuxLoader

variable {K : Type} [LinearOrderedField K]

/-- A trajectory map whose type is not `"Keplerian"` gives the null pointer. -/
theorem loadTrajectory_of_ne_keplerian (v : Vesta K) (qt : QtConv K) (map : QVariantMap K)
    (h : (map.value "type").toString qt ≠ "Keplerian") :
    loadTrajectory v qt map = Ptr.null := by
  unfold loadTrajectory
  simp only [loadFixedTrajectory]
  split_ifs <;> rfl

/-- The pointer that `loadTrajectory` hands back: indeterminate for a map of type `"Keplerian"`
with positive semimajor axis and period, null for every other map. -/
theorem loadTrajectory_eq (v : Vesta K) (qt : QtConv K) (map : QVariantMap K) :
    loadTrajectory v qt map =
      if (map.value "type").toString qt = "Keplerian" ∧
          0 < doubleValue qt (map.value "semiMajorAxis") 0.0 ∧
          0 < doubleValue qt (map.value "period") 0.0 then Ptr.indeterminate
      else Ptr.null := by
  have z : (0.0 : K) = 0 := by norm_num
  by_cases hk : (map.value "type").toString qt = "Keplerian"
  · have hrun : loadTrajectory v qt map = (loadKeplerianTrajectory v qt map).received := by
      unfold loadTrajectory
      simp [hk]
    rw [hrun]
    unfold loadKeplerianTrajectory
    simp only [z]
    by_cases hs : 0 < doubleValue qt (map.value "semiMajorAxis") 0
    · by_cases hp : 0 < doubleValue qt (map.value "period") 0
      · rw [if_neg (not_le.mpr hs), if_neg (not_le.mpr hp), if_pos ⟨hk, hs, hp⟩]
        rfl
      · rw [if_neg (not_le.mpr hs), if_pos (not_lt.mp hp), if_neg (fun h => hp h.2.2)]
        rfl
    · rw [if_pos (not_lt.mp hs), if_neg (fun h => hs h.2.1)]
      rfl
  · rw [loadTrajectory_of_ne_keplerian v qt map hk, if_neg (fun h => hk h.1)]

/-- The blocks of `loadArc` for the rotation model and the two frames never change the arc, and
`loadTrajectory` never hands back the address of an object: the call returns the new arc, or
it has no result. -/
theorem loadArc_eq (v : Vesta K) (qt : QtConv K) (map : QVariantMap K) :
    loadArc v qt map =
      if reachesMissingReturn qt map then Run.undefined else Run.returns (some v.newArc) := by
  have hrot : ∀ m : QVariantMap K, loadRotationModel qt m = none := by
    intro m
    unfold loadRotationModel
    simp only [loadFixedRotationModel, loadUniformRotationModel]
    split_ifs <;> rfl
  unfold loadArc
  simp only [hrot, loadInertialFrame, ite_self]
  by_cases hmap : (map.value "trajectory").type = QVariantType.Map
  · rw [if_pos hmap, loadTrajectory_eq]
    by_cases hfall : ((map.value "trajectory").toMap.value "type").toString qt = "Keplerian" ∧
        0 < doubleValue qt ((map.value "trajectory").toMap.value "semiMajorAxis") 0.0 ∧
        0 < doubleValue qt ((map.value "trajectory").toMap.value "period") 0.0
    · rw [if_pos hfall, if_pos ⟨hmap, hfall⟩]
    · rw [if_neg hfall, if_neg (fun h => hfall h.2)]
  · rw [if_neg hmap, if_neg (fun h => hmap h.1)]

/-- An item that is not a map is skipped by the loop of `loadSolarSystem`. -/
theorem Cosmographia.loadSolarSystemItem_of_not_map (v : Vesta K)
    (qt : QtConv K) (done : LoadEffects K) (item : QVariant K)
    (h : item.type ≠ QVariantType.Map) :
    Cosmographia.loadSolarSystemItem v qt done item = Run.returns done := by
  unfold Cosmographia.loadSolarSystemItem
  rw [if_pos h]

/-- A map item makes the loop of `loadSolarSystem` construct one arc and one body that holds
this arc, unless the call of `loadArc` reaches the missing `return`: then the step has no
result. -/
theorem Cosmographia.loadSolarSystemItem_of_map (v : Vesta K)
    (qt : QtConv K) (done : LoadEffects K) (entries : QVariantMap K) :
    Cosmographia.loadSolarSystemItem v qt done (QVariant.map entries) =
      if reachesMissingReturn qt entries then Run.undefined
      else Run.returns
        { done with arcs := done.arcs + 1, bodies := done.bodies ++ [⟨[v.newArc]⟩] } := by
  unfold Cosmographia.loadSolarSystemItem
  rw [if_neg (by simp [QVariant.type])]
  simp only [QVariant.toMap, loadArc_eq]
  by_cases h : reachesMissingReturn qt entries
  · simp only [if_pos h]
  · simp only [if_neg h, vesta.Body.new, vesta.Body.addArc, List.nil_append]

/-- The loop of `loadSolarSystem` over a list in which no map reaches the missing `return`,
started from any state `done`: one arc and one body for each map item, in order, and nothing
else changes. -/
theorem Cosmographia.loadSolarSystemLoop_of_clean (v : Vesta K)
    (qt : QtConv K) (items : List (QVariant K)) (done : LoadEffects K)
    (hclean : ∀ m ∈ mapItems items, ¬ reachesMissingReturn qt m) :
    Cosmographia.loadSolarSystemLoop v qt items done = Run.returns
      { done with arcs := done.arcs + (mapItems items).length,
                  bodies := done.bodies ++ (mapItems items).map (fun _ => ⟨[v.newArc]⟩) } := by
  induction items generalizing done with
  | nil => simp [Cosmographia.loadSolarSystemLoop, mapItems]
  | cons item rest ih =>
    cases item with
    | map entries =>
      have hhead : ¬ reachesMissingReturn qt entries := hclean entries (by simp [mapItems])
      have hrest : ∀ m ∈ mapItems rest, ¬ reachesMissingReturn qt m :=
        fun m hm => hclean m (by simp [mapItems, hm])
      unfold Cosmographia.loadSolarSystemLoop
      rw [Cosmographia.loadSolarSystemItem_of_map, if_neg hhead]
      simp only [ih _ hrest]
      simp [mapItems, Nat.add_assoc, Nat.add_comm 1]
    | invalid =>
      unfold Cosmographia.loadSolarSystemLoop
      rw [Cosmographia.loadSolarSystemItem_of_not_map v qt done _ (by simp [QVariant.type])]
      exact ih done hclean
    | bool b =>
      unfold Cosmographia.loadSolarSystemLoop
      rw [Cosmographia.loadSolarSystemItem_of_not_map v qt done _ (by simp [QVariant.type])]
      exact ih done hclean
    | number x =>
      unfold Cosmographia.loadSolarSystemLoop
      rw [Cosmographia.loadSolarSystemItem_of_not_map v qt done _ (by simp [QVariant.type])]
      exact ih done hclean
    | string str =>
      unfold Cosmographia.loadSolarSystemLoop
      rw [Cosmographia.loadSolarSystemItem_of_not_map v qt done _ (by simp [QVariant.type])]
      exact ih done hclean
    | list sub =>
      unfold Cosmographia.loadSolarSystemLoop
      rw [Cosmographia.loadSolarSystemItem_of_not_map v qt done _ (by simp [QVariant.type])]
      exact ih done hclean

/-- The loop of `loadSolarSystem` over a list in which some map reaches the missing `return`
has no result, whatever the state it starts from. -/
theorem Cosmographia.loadSolarSystemLoop_of_reaching (v : Vesta K)
    (qt : QtConv K) (items : List (QVariant K)) (done : LoadEffects K)
    (hreach : ∃ m ∈ mapItems items, reachesMissingReturn qt m) :
    Cosmographia.loadSolarSystemLoop v qt items done = Run.undefined := by
  induction items generalizing done with
  | nil =>
    obtain ⟨m, hm, _⟩ := hreach
    simp [mapItems] at hm
  | cons item rest ih =>
    cases item with
    | map entries =>
      unfold Cosmographia.loadSolarSystemLoop
      rw [Cosmographia.loadSolarSystemItem_of_map]
      by_cases hhead : reachesMissingReturn qt entries
      · rw [if_pos hhead]
      · rw [if_neg hhead]
        obtain ⟨m, hm, hreaches⟩ := hreach
        simp only [mapItems, List.mem_cons] at hm
        rcases hm with rfl | hm
        · exact absurd hreaches hhead
        · exact ih _ ⟨m, hm, hreaches⟩
    | invalid =>
      unfold Cosmographia.loadSolarSystemLoop
      rw [Cosmographia.loadSolarSystemItem_of_not_map v qt done _ (by simp [QVariant.type])]
      exact ih done hreach
    | bool b =>
      unfold Cosmographia.loadSolarSystemLoop
      rw [Cosmographia.loadSolarSystemItem_of_not_map v qt done _ (by simp [QVariant.type])]
      exact ih done hreach
    | number x =>
      unfold Cosmographia.loadSolarSystemLoop
      rw [Cosmographia.loadSolarSystemItem_of_not_map v qt done _ (by simp [QVariant.type])]
      exact ih done hreach
    | string str =>
      unfold Cosmographia.loadSolarSystemLoop
      rw [Cosmographia.loadSolarSystemItem_of_not_map v qt done _ (by simp [QVariant.type])]
      exact ih done hreach
    | list sub =>
      unfold Cosmographia.loadSolarSystemLoop
      rw [Cosmographia.loadSolarSystemItem_of_not_map v qt done _ (by simp [QVariant.type])]
      exact ih done hreach

/-- A run of `loadSolarSystem` leaves the window as it was, and it either shows at most one
message box and constructs nothing, or runs the loop over a list from the state `nothing`. -/
theorem Cosmographia.loadSolarSystem_cases (v : Vesta K) (qt : QtConv K) (desk : Desktop K)
    (app : Cosmographia K) :
    (Cosmographia.loadSolarSystem v qt desk app).1 = app ∧
    ((∃ shown, (Cosmographia.loadSolarSystem v qt desk app).2 =
        Run.returns ⟨shown, 0, [], 0⟩) ∨
      ∃ items : List (QVariant K), (Cosmographia.loadSolarSystem v qt desk app).2 =
        Cosmographia.loadSolarSystemLoop v qt items LoadEffects.nothing) := by
  unfold Cosmographia.loadSolarSystem
  simp only
  by_cases hname : desk.getOpenFileName.isEmpty = true
  · rw [if_pos hname]
    exact ⟨rfl, Or.inl ⟨_, rfl⟩⟩
  · rw [if_neg hname]
    cases desk.openReadOnly desk.getOpenFileName with
    | none => exact ⟨rfl, Or.inl ⟨_, rfl⟩⟩
    | some file =>
      simp only
      split_ifs
      · exact ⟨rfl, Or.inl ⟨_, rfl⟩⟩
      · exact ⟨rfl, Or.inl ⟨_, rfl⟩⟩
      · exact ⟨rfl, Or.inl ⟨_, rfl⟩⟩
      · exact ⟨rfl, Or.inl ⟨_, rfl⟩⟩
      · exact ⟨rfl, Or.inr ⟨_, rfl⟩⟩

/-- Bodies that hold the new arc are related to the maps they come from as the loop of
`loadSolarSystem` relates them, when no map reaches the missing `return`. -/
theorem bodies_of_clean_maps (v : Vesta K) (qt : QtConv K) (maps : List (QVariantMap K))
    (hclean : ∀ m ∈ maps, ¬ reachesMissingReturn qt m) :
    List.Forall₂
      (fun m body => ∃ arc, loadArc v qt m = Run.returns (some arc) ∧ body.chronology = [arc])
      maps (maps.map (fun _ => (⟨[v.newArc]⟩ : vesta.Body K))) := by
  induction maps with
  | nil => exact List.Forall₂.nil
  | cons m rest ih =>
    refine List.Forall₂.cons ⟨v.newArc, ?_, rfl⟩
      (ih (fun m' hm' => hclean m' (List.mem_cons_of_mem _ hm')))
    rw [loadArc_eq, if_neg (hclean m (List.mem_cons_self _ _))]

end AuxLoader

/-! ## Theorems: the stub loaders and the dispatchers -/

section StubTheorems

variable {K : Type}

/-- C1: for every map and every frame name, `loadFixedTrajectory`, `loadFixedRotationModel`,
`loadUniformRotationModel` and `loadInertialFrame` return NULL. -/
theorem stub_loaders_return_null (info : QVariantMap K) (name : String) :
    loadFixedTrajectory info = Ptr.null ∧
    loadFixedRotationModel info = none ∧
    loadUniformRotationModel info = none ∧
    loadInertialFrame name = none :=
  ⟨rfl, rfl, rfl, rfl⟩

/-- C2: for every map, `loadRotationModel` returns NULL, whatever its `"type"` entry is. -/
theorem loadRotationModel_null (qt : QtConv K) (map : QVariantMap K) :
    loadRotationModel qt map = none := by
  unfold loadRotationModel
  simp only [loadFixedRotationModel, loadUniformRotationModel]
  split_ifs <;> rfl

end StubTheorems

section LoaderTheorems

variable {K : Type} [LinearOrderedField K]

/-- C3: `loadTrajectory` dispatches on the string value of the `"type"` entry: the result of
`loadFixedTrajectory` for `"Fixed"`, the result of `loadKeplerianTrajectory` (what its caller
receives) for `"Keplerian"`, NULL otherwise; so it returns NULL whenever the string value is
not `"Keplerian"`, in particular when the entry is absent or is not a string. -/
theorem loadTrajectory_dispatch (v : Vesta K) (qt : QtConv K) (map : QVariantMap K) :
    ((map.value "type").toString qt = "Fixed" →
      loadTrajectory v qt map = loadFixedTrajectory map) ∧
    ((map.value "type").toString qt = "Keplerian" →
      loadTrajectory v qt map = (loadKeplerianTrajectory v qt map).received) ∧
    ((map.value "type").toString qt ≠ "Fixed" → (map.value "type").toString qt ≠ "Keplerian" →
      loadTrajectory v qt map = Ptr.null) ∧
    ((map.value "type").toString qt ≠ "Keplerian" → loadTrajectory v qt map = Ptr.null) ∧
    (map.contains "type" = false → loadTrajectory v qt map = Ptr.null) ∧
    ((map.value "type").type ≠ QVariantType.String → loadTrajectory v qt map = Ptr.null) := by
  have hne : (map.value "type").toString qt ≠ "Keplerian" →
      loadTrajectory v qt map = Ptr.null := by
    intro h
    unfold loadTrajectory
    simp only [loadFixedTrajectory]
    split_ifs <;> rfl
  have hty : (map.value "type").type ≠ QVariantType.String →
      loadTrajectory v qt map = Ptr.null := fun h =>
    hne (QVariant.toString_ne_of_type qt _ "Keplerian" h ⟨'K', by decide, by decide⟩)
  refine ⟨?_, ?_, fun _ h => hne h, hne, ?_, hty⟩
  · intro h
    unfold loadTrajectory
    simp only [h, if_true]
  · intro h
    unfold loadTrajectory
    simp [h]
  · intro h
    apply hty
    rw [QVariantMap.value_of_not_contains map "type" h]
    intro hinv
    cases hinv

/-- Witness of C3 on maps of type `"Fixed"`, `"Keplerian"`, `"Other"`, without type, and with a
number as type. -/
theorem loadTrajectory_dispatch_witness :
    loadTrajectory sampleVesta sampleQt [("type", .string "Fixed")] =
      loadFixedTrajectory [("type", .string "Fixed")] ∧
    loadTrajectory sampleVesta sampleQt [("type", .string "Keplerian")] =
      (loadKeplerianTrajectory sampleVesta sampleQt [("type", .string "Keplerian")]).received ∧
    loadTrajectory sampleVesta sampleQt [("type", .string "Other")] = Ptr.null ∧
    loadTrajectory sampleVesta sampleQt [("type", .string "keplerian")] = Ptr.null ∧
    loadTrajectory sampleVesta sampleQt [("semiMajorAxis", .number 1)] = Ptr.null ∧
    loadTrajectory sampleVesta sampleQt [("type", .number 1)] = Ptr.null :=
  ⟨(loadTrajectory_dispatch sampleVesta sampleQt _).1 (by decide),
   (loadTrajectory_dispatch sampleVesta sampleQt _).2.1 (by decide),
   (loadTrajectory_dispatch sampleVesta sampleQt _).2.2.1 (by decide) (by decide),
   (loadTrajectory_dispatch sampleVesta sampleQt _).2.2.2.1 (by decide),
   (loadTrajectory_dispatch sampleVesta sampleQt _).2.2.2.2.1 (by decide),
   (loadTrajectory_dispatch sampleVesta sampleQt _).2.2.2.2.2 (by decide)⟩

end LoaderTheorems

/-! ## Theorems: loading a solar-system file -/

section LoadSolarSystemTheorems

variable {K : Type} [LinearOrderedField K]

/-- C4, on the code: take a file that is opened and parsed and whose top level is a non-empty
map with a list as `"bodies"` entry.  When no map of the list reaches the missing `return` of
`loadKeplerianTrajectory`, `loadSolarSystem` constructs one body for each item of the list
that is a map, in the order of the list, whose chronology holds exactly the arc that `loadArc`
returns for the item; no body is deleted and no message box is shown.  When some map of the
list reaches the missing `return`, the run has undefined behaviour and no result.  An item
that is not a map is skipped. -/
theorem loadSolarSystem_creates_bodies (v : Vesta K) (qt : QtConv K) (desk : Desktop K)
    (app : Cosmographia K) (file : String) (contents : QVariantMap K)
    (items : List (QVariant K))
    (hname : desk.getOpenFileName.isEmpty = false)
    (hopen : desk.openReadOnly desk.getOpenFileName = some file)
    (hparse : (desk.parse file).parseOk = true)
    (htop : (desk.parse file).result = QVariant.map contents)
    (hne : contents ≠ [])
    (hbodies : contents.value "bodies" = QVariant.list items) :
    ((∀ m ∈ mapItems items, ¬ reachesMissingReturn qt m) →
      ∃ effects : LoadEffects K,
        (Cosmographia.loadSolarSystem v qt desk app).2 = Run.returns effects ∧
        List.Forall₂
          (fun m body => ∃ arc, loadArc v qt m = Run.returns (some arc) ∧
            body.chronology = [arc])
          (mapItems items) effects.bodies ∧
        effects.arcs = (mapItems items).length ∧
        effects.deleted = 0 ∧
        effects.warnings = []) ∧
    ((∃ m ∈ mapItems items, reachesMissingReturn qt m) →
      (Cosmographia.loadSolarSystem v qt desk app).2 = Run.undefined) ∧
    (∀ (done : LoadEffects K) (item : QVariant K), item.type ≠ QVariantType.Map →
      Cosmographia.loadSolarSystemItem v qt done item = Run.returns done) := by
  have hlook : List.lookup "bodies" (QVariantMap.index contents "name").1 =
      List.lookup "bodies" contents :=
    QVariantMap.lookup_index_of_ne contents "name" "bodies" (by decide)
  have hval : QVariantMap.value (QVariantMap.index contents "name").1 "bodies" =
      QVariant.list items := by
    rw [← hbodies]; unfold QVariantMap.value; rw [hlook]
  have hcont : QVariantMap.contains (QVariantMap.index contents "name").1 "bodies" = true := by
    unfold QVariantMap.contains
    rw [hlook]
    unfold QVariantMap.value at hbodies
    cases hl : List.lookup "bodies" contents with
    | some x => rfl
    | none => rw [hl] at hbodies; cases hbodies
  have hempty : QVariantMap.empty contents = false := by
    cases contents with
    | nil => exact absurd rfl hne
    | cons e rest => rfl
  have hrun : (Cosmographia.loadSolarSystem v qt desk app).2 =
      Cosmographia.loadSolarSystemLoop v qt items LoadEffects.nothing := by
    unfold Cosmographia.loadSolarSystem
    simp only [hname, hopen, hparse, htop, QVariant.toMap, hempty, hcont,
      QVariantMap.index_snd, hval, QVariant.type, QVariant.toList]
    simp
  refine ⟨fun hclean => ?_, fun hreach => ?_, fun done item h =>
    Cosmographia.loadSolarSystemItem_of_not_map v qt done item h⟩
  · rw [hrun, Cosmographia.loadSolarSystemLoop_of_clean v qt items _ hclean]
    refine ⟨_, rfl, ?_, ?_, rfl, rfl⟩
    · simp only [LoadEffects.nothing, List.nil_append]
      exact bodies_of_clean_maps v qt (mapItems items) hclean
    · simp [LoadEffects.nothing]
  · rw [hrun, Cosmographia.loadSolarSystemLoop_of_reaching v qt items _ hreach]

/-- Witness of C4: for a file whose `"bodies"` list holds a map, a number and a map with a
fixed trajectory, the run returns; for a file whose `"bodies"` list holds a body with a
Keplerian trajectory of semimajor axis `1` and period `1`, the run has no result. -/
theorem loadSolarSystem_creates_bodies_witness :
    (∃ effects : LoadEffects ℚ,
      (Cosmographia.loadSolarSystem sampleVesta sampleQt
        ⟨"cosmo.json", fun _ => some "text", fun _ =>
          ⟨QVariant.map [("name", QVariant.string "Sol"), ("bodies", QVariant.list
            [QVariant.map [], QVariant.number 3,
              QVariant.map [("trajectory", QVariant.map [("type", QVariant.string "Fixed")])]])],
            true, 0, ""⟩⟩ (sampleApp 1 0)).2 = Run.returns effects ∧
      effects.arcs = 2 ∧ effects.deleted = 0) ∧
    (Cosmographia.loadSolarSystem sampleVesta sampleQt
      ⟨"cosmo.json", fun _ => some "text", fun _ =>
        ⟨QVariant.map [("bodies", QVariant.list
          [QVariant.map [("trajectory", QVariant.map [("type", QVariant.string "Keplerian"),
            ("semiMajorAxis", QVariant.number 1), ("period", QVariant.number 1)])]])],
          true, 0, ""⟩⟩ (sampleApp 1 0)).2 = Run.undefined := by
  constructor
  · obtain ⟨effects, hrun, _, harcs, hdel, _⟩ :=
      (loadSolarSystem_creates_bodies sampleVesta sampleQt
        ⟨"cosmo.json", fun _ => some "text", fun _ =>
          ⟨QVariant.map [("name", QVariant.string "Sol"), ("bodies", QVariant.list
            [QVariant.map [], QVariant.number 3,
              QVariant.map [("trajectory", QVariant.map [("type", QVariant.string "Fixed")])]])],
            true, 0, ""⟩⟩ (sampleApp 1 0) "text"
        [("name", QVariant.string "Sol"), ("bodies", QVariant.list
          [QVariant.map [], QVariant.number 3,
            QVariant.map [("trajectory", QVariant.map [("type", QVariant.string "Fixed")])]])]
        [QVariant.map [], QVariant.number 3,
          QVariant.map [("trajectory", QVariant.map [("type", QVariant.string "Fixed")])]]
        (by decide) rfl rfl rfl (by simp) (by simp [QVariantMap.value, List.lookup])).1
        (by
          intro m hm
          simp only [mapItems, List.mem_cons, List.mem_singleton, List.not_mem_nil,
            or_false] at hm
          rcases hm with rfl | rfl
          · exact fun h => absurd h.1 (by decide)
          · exact fun h => absurd h.2.1 (by decide))
    exact ⟨effects, hrun, harcs, hdel⟩
  · exact (loadSolarSystem_creates_bodies sampleVesta sampleQt
      ⟨"cosmo.json", fun _ => some "text", fun _ =>
        ⟨QVariant.map [("bodies", QVariant.list
          [QVariant.map [("trajectory", QVariant.map [("type", QVariant.string "Keplerian"),
            ("semiMajorAxis", QVariant.number 1), ("period", QVariant.number 1)])]])],
          true, 0, ""⟩⟩ (sampleApp 1 0) "text"
      [("bodies", QVariant.list
        [QVariant.map [("trajectory", QVariant.map [("type", QVariant.string "Keplerian"),
          ("semiMajorAxis", QVariant.number 1), ("period", QVariant.number 1)])]])]
      [QVariant.map [("trajectory", QVariant.map [("type", QVariant.string "Keplerian"),
        ("semiMajorAxis", QVariant.number 1), ("period", QVariant.number 1)])]]
      (by decide) rfl rfl rfl (by simp) (by simp [QVariantMap.value, List.lookup])).2.1
      ⟨[("trajectory", QVariant.map [("type", QVariant.string "Keplerian"),
          ("semiMajorAxis", QVariant.number 1), ("period", QVariant.number 1)])],
        by simp [mapItems],
        ⟨by decide, by decide, show (0 : ℚ) < 1 from one_pos, show (0 : ℚ) < 1 from one_pos⟩⟩

/-- C5: `loadSolarSystem` returns and constructs no body and no arc when the dialog returns an empty name,
when the file cannot be opened (one warning, "Could not open file."), when the parser fails
(one warning, "Line n: message"), when the top level converts to an empty map, when the map
has no `"bodies"` key, and when the `"bodies"` value is not a list. -/
theorem loadSolarSystem_no_body (v : Vesta K) (qt : QtConv K) (desk : Desktop K)
    (app : Cosmographia K) :
    (desk.getOpenFileName.isEmpty = true →
      (Cosmographia.loadSolarSystem v qt desk app).2 = Run.returns ⟨[], 0, [], 0⟩) ∧
    (desk.getOpenFileName.isEmpty = false →
      desk.openReadOnly desk.getOpenFileName = none →
      (Cosmographia.loadSolarSystem v qt desk app).2 =
        Run.returns ⟨[("Solar System File Error", "Could not open file.")], 0, [], 0⟩) ∧
    (∀ file, desk.getOpenFileName.isEmpty = false →
      desk.openReadOnly desk.getOpenFileName = some file →
      (desk.parse file).parseOk = false →
      (Cosmographia.loadSolarSystem v qt desk app).2 =
        Run.returns ⟨[("Solar System File Error",
          "Line " ++ toString (desk.parse file).errorLine ++ ": "
            ++ (desk.parse file).errorString)], 0, [], 0⟩) ∧
    (∀ file, desk.getOpenFileName.isEmpty = false →
      desk.openReadOnly desk.getOpenFileName = some file →
      (desk.parse file).parseOk = true →
      (desk.parse file).result.toMap = [] →
      (Cosmographia.loadSolarSystem v qt desk app).2 = Run.returns ⟨[], 0, [], 0⟩) ∧
    (∀ file, desk.getOpenFileName.isEmpty = false →
      desk.openReadOnly desk.getOpenFileName = some file →
      (desk.parse file).parseOk = true →
      (desk.parse file).result.toMap.contains "bodies" = false →
      (Cosmographia.loadSolarSystem v qt desk app).2 = Run.returns ⟨[], 0, [], 0⟩) ∧
    (∀ file, desk.getOpenFileName.isEmpty = false →
      desk.openReadOnly desk.getOpenFileName = some file →
      (desk.parse file).parseOk = true →
      ((desk.parse file).result.toMap.value "bodies").type ≠ QVariantType.List →
      (Cosmographia.loadSolarSystem v qt desk app).2 = Run.returns ⟨[], 0, [], 0⟩) := by
  have hnotlist : ∀ file, desk.getOpenFileName.isEmpty = false →
      desk.openReadOnly desk.getOpenFileName = some file →
      (desk.parse file).parseOk = true →
      ((desk.parse file).result.toMap.value "bodies").type ≠ QVariantType.List →
      (Cosmographia.loadSolarSystem v qt desk app).2 = Run.returns ⟨[], 0, [], 0⟩ := by
    intro file hname hopen hparse hty
    have hval : QVariantMap.value (QVariantMap.index (desk.parse file).result.toMap "name").1
        "bodies" = (desk.parse file).result.toMap.value "bodies" := by
      unfold QVariantMap.value
      rw [QVariantMap.lookup_index_of_ne _ "name" "bodies" (by decide)]
    unfold Cosmographia.loadSolarSystem
    simp only [hname, hopen, hparse, QVariantMap.index_snd, hval]
    simp only [Bool.false_eq_true, if_false, Bool.not_true, if_pos hty]
    split_ifs <;> rfl
  refine ⟨?_, ?_, ?_, ?_, ?_, hnotlist⟩
  · intro hname
    unfold Cosmographia.loadSolarSystem
    simp only [hname, if_true]
    rfl
  · intro hname hopen
    unfold Cosmographia.loadSolarSystem
    simp only [hname, hopen]
    rfl
  · intro file hname hopen hparse
    unfold Cosmographia.loadSolarSystem
    simp only [hname, hopen, hparse]
    rfl
  · intro file hname hopen hparse hmap
    apply hnotlist file hname hopen hparse
    rw [hmap]
    simp [QVariantMap.value, QVariant.type]
  · intro file hname hopen hparse hcont
    apply hnotlist file hname hopen hparse
    rw [QVariantMap.value_of_not_contains _ _ hcont]
    simp [QVariant.type]

/-- Witness of C5: a cancelled dialog, a file that cannot be opened, a file that the parser
rejects at line 3, a file holding a list, a map without `"bodies"`, and a map whose
`"bodies"` is a string. -/
theorem loadSolarSystem_no_body_witness :
    (Cosmographia.loadSolarSystem sampleVesta sampleQt
      ⟨"", fun _ => some "text", fun _ => ⟨QVariant.invalid, true, 0, ""⟩⟩ (sampleApp 1 0)).2
      = Run.returns ⟨[], 0, [], 0⟩ ∧
    (Cosmographia.loadSolarSystem sampleVesta sampleQt
      ⟨"cosmo.json", fun _ => none, fun _ => ⟨QVariant.invalid, true, 0, ""⟩⟩ (sampleApp 1 0)).2
      = Run.returns ⟨[("Solar System File Error", "Could not open file.")], 0, [], 0⟩ ∧
    (Cosmographia.loadSolarSystem sampleVesta sampleQt
      ⟨"cosmo.json", fun _ => some "text", fun _ => ⟨QVariant.invalid, false, 3, "bad token"⟩⟩
      (sampleApp 1 0)).2
      = Run.returns ⟨[("Solar System File Error", "Line 3: bad token")], 0, [], 0⟩ ∧
    (Cosmographia.loadSolarSystem sampleVesta sampleQt
      ⟨"cosmo.json", fun _ => some "text", fun _ =>
        ⟨QVariant.list [QVariant.map []], true, 0, ""⟩⟩ (sampleApp 1 0)).2
      = Run.returns ⟨[], 0, [], 0⟩ ∧
    (Cosmographia.loadSolarSystem sampleVesta sampleQt
      ⟨"cosmo.json", fun _ => some "text", fun _ =>
        ⟨QVariant.map [("name", QVariant.string "Sol")], true, 0, ""⟩⟩ (sampleApp 1 0)).2
      = Run.returns ⟨[], 0, [], 0⟩ ∧
    (Cosmographia.loadSolarSystem sampleVesta sampleQt
      ⟨"cosmo.json", fun _ => some "text", fun _ =>
        ⟨QVariant.map [("bodies", QVariant.string "Sol")], true, 0, ""⟩⟩ (sampleApp 1 0)).2
      = Run.returns ⟨[], 0, [], 0⟩ :=
  ⟨(loadSolarSystem_no_body sampleVesta sampleQt _ (sampleApp 1 0)).1 (by decide),
   (loadSolarSystem_no_body sampleVesta sampleQt _ (sampleApp 1 0)).2.1 (by decide) rfl,
   (loadSolarSystem_no_body sampleVesta sampleQt _ (sampleApp 1 0)).2.2.1 "text"
     (by decide) rfl rfl,
   (loadSolarSystem_no_body sampleVesta sampleQt _ (sampleApp 1 0)).2.2.2.1 "text"
     (by decide) rfl rfl rfl,
   (loadSolarSystem_no_body sampleVesta sampleQt _ (sampleApp 1 0)).2.2.2.2.1 "text"
     (by decide) rfl rfl (by decide),
   (loadSolarSystem_no_body sampleVesta sampleQt _ (sampleApp 1 0)).2.2.2.2.2 "text"
     (by decide) rfl rfl (by decide)⟩

end LoadSolarSystemTheorems

/-! ## Theorems: the time controls -/

section TimeTheorems

variable {K : Type} [LinearOrderedField K]

/-- C6: `faster` sets the time scale to ten times the current one, clamped to
`[-1.0e7, 1.0e7]`, and `faster2` to twice the current one, clamped to the same interval; so
the magnitude of the time scale is at most `1.0e7` after either. -/
theorem faster_clamps (app : Cosmographia K) :
    (Cosmographia.faster app).m_view3d.timeScale =
      max (-1.0e7) (min 1.0e7 (10 * app.m_view3d.timeScale)) ∧
    (Cosmographia.faster2 app).m_view3d.timeScale =
      max (-1.0e7) (min 1.0e7 (2 * app.m_view3d.timeScale)) ∧
    |(Cosmographia.faster app).m_view3d.timeScale| ≤ 1.0e7 ∧
    |(Cosmographia.faster2 app).m_view3d.timeScale| ≤ 1.0e7 := by
  simp only [Cosmographia.faster, Cosmographia.faster2, UniverseView.setTimeScale,
    UniverseView.timeScale]
  norm_num
  refine ⟨?_, ?_, ?_, ?_⟩
  · split_ifs with h1 h2
    · rw [min_eq_right (by linarith), max_eq_left (by linarith)]
    · rw [min_eq_left (by linarith), max_eq_right (by norm_num)]
    · rw [min_eq_right (by linarith), max_eq_right (by linarith)]
      ring
  · split_ifs with h1 h2
    · rw [min_eq_right (by linarith), max_eq_left (by linarith)]
    · rw [min_eq_left (by linarith), max_eq_right (by norm_num)]
    · rw [min_eq_right (by linarith), max_eq_right (by linarith)]
      ring
  · split_ifs with h1 h2 <;> rw [abs_le] <;> constructor <;> norm_num <;> linarith
  · split_ifs with h1 h2 <;> rw [abs_le] <;> constructor <;> norm_num <;> linarith

/-- C7: with `f = 0.1` for `slower` and `f = 0.5` for `slower2`, the action sets the time scale
to `max 1.0e-3 (f*t)` when `f*t > 0`, to `min (-1.0e-3) (f*t)` when `f*t < 0` and to `0` when
`f*t = 0`; so a time scale that is not zero has magnitude at least `1.0e-3` afterwards, and a
product of magnitude at least `1.0e-3` is stored as it is, however large. -/
theorem slower_floors (app : Cosmographia K) (f : K) (after : Cosmographia K)
    (hact : (f = 0.1 ∧ after = Cosmographia.slower app) ∨
      (f = 0.5 ∧ after = Cosmographia.slower2 app)) :
    (f * app.m_view3d.timeScale > 0 →
      after.m_view3d.timeScale = max 1.0e-3 (f * app.m_view3d.timeScale)) ∧
    (f * app.m_view3d.timeScale < 0 →
      after.m_view3d.timeScale = min (-1.0e-3) (f * app.m_view3d.timeScale)) ∧
    (f * app.m_view3d.timeScale = 0 → after.m_view3d.timeScale = 0) ∧
    (app.m_view3d.timeScale ≠ 0 → 1.0e-3 ≤ |after.m_view3d.timeScale|) ∧
    (after.m_view3d.timeScale ≠ 0 → 1.0e-3 ≤ |after.m_view3d.timeScale|) ∧
    (1.0e-3 ≤ |f * app.m_view3d.timeScale| →
      after.m_view3d.timeScale = f * app.m_view3d.timeScale) := by
  have key : ∀ x : K,
      after.m_view3d.timeScale =
        (if x > 0.0 then max 1.0e-3 x else if x < 0.0 then min (-1.0e-3) x else x) →
      (x > 0 → after.m_view3d.timeScale = max 1.0e-3 x) ∧
      (x < 0 → after.m_view3d.timeScale = min (-1.0e-3) x) ∧
      (x = 0 → after.m_view3d.timeScale = 0) ∧
      (x ≠ 0 → 1.0e-3 ≤ |after.m_view3d.timeScale|) ∧
      (after.m_view3d.timeScale ≠ 0 → 1.0e-3 ≤ |after.m_view3d.timeScale|) ∧
      (1.0e-3 ≤ |x| → after.m_view3d.timeScale = x) := by
    intro x hx
    have h3 : (0 : K) < 1.0e-3 := by norm_num
    have z : (0.0 : K) = 0 := by norm_num
    rw [z] at hx
    rcases lt_trichotomy x 0 with hneg | hzero | hpos
    · rw [if_neg (not_lt.mpr hneg.le), if_pos hneg] at hx
      have hle : after.m_view3d.timeScale ≤ -1.0e-3 := hx ▸ min_le_left _ _
      have habs : 1.0e-3 ≤ |after.m_view3d.timeScale| := by
        rw [abs_of_neg (by linarith)]; linarith
      refine ⟨fun h => absurd h (not_lt.mpr hneg.le), fun _ => hx,
        fun h => absurd h hneg.ne, fun _ => habs, fun _ => habs, fun h => ?_⟩
      rw [abs_of_neg hneg] at h
      rw [hx, min_eq_right (by linarith)]
    · subst hzero
      rw [if_neg (lt_irrefl _), if_neg (lt_irrefl _)] at hx
      refine ⟨fun h => absurd h (lt_irrefl _), fun h => absurd h (lt_irrefl _),
        fun _ => hx, fun h => absurd rfl h, fun h => absurd hx h, fun _ => hx⟩
    · rw [if_pos hpos] at hx
      have hle : 1.0e-3 ≤ after.m_view3d.timeScale := hx ▸ le_max_left _ _
      have habs : 1.0e-3 ≤ |after.m_view3d.timeScale| := by
        rw [abs_of_pos (by linarith)]; exact hle
      refine ⟨fun _ => hx, fun h => absurd h (not_lt.mpr hpos.le),
        fun h => absurd h hpos.ne', fun _ => habs, fun _ => habs, fun h => ?_⟩
      rw [abs_of_pos hpos] at h
      rw [hx, max_eq_right h]
  rcases hact with ⟨rfl, rfl⟩ | ⟨rfl, rfl⟩
  · have := key (0.1 * app.m_view3d.timeScale) (by
      simp only [Cosmographia.slower, UniverseView.setTimeScale, UniverseView.timeScale,
        mul_comm])
    simpa only [ne_eq, mul_eq_zero, UniverseView.timeScale,
      show ((0.1 : K) = 0) = False from by norm_num, false_or] using this
  · have := key (0.5 * app.m_view3d.timeScale) (by
      simp only [Cosmographia.slower2, UniverseView.setTimeScale, UniverseView.timeScale,
        mul_comm])
    simpa only [ne_eq, mul_eq_zero, UniverseView.timeScale,
      show ((0.5 : K) = 0) = False from by norm_num, false_or] using this

/-- Witness of C7: from the time scale `1/2000`, `slower` stores `max 1.0e-3 (0.1 * (1/2000))`,
which is `1/1000`. -/
theorem slower_floors_witness :
    (Cosmographia.slower (sampleApp (1 / 2000) 0)).m_view3d.timeScale =
      max 1.0e-3 (0.1 * (sampleApp (1 / 2000) 0).m_view3d.timeScale) ∧
    max (1.0e-3 : ℚ) (0.1 * (sampleApp (1 / 2000) 0).m_view3d.timeScale) = 1 / 1000 :=
  ⟨(slower_floors (sampleApp (1 / 2000) 0) 0.1 (Cosmographia.slower (sampleApp (1 / 2000) 0))
      (Or.inl ⟨rfl, rfl⟩)).1 (by norm_num [sampleApp, UniverseView.timeScale]),
   by norm_num [sampleApp, UniverseView.timeScale]⟩

/-- C8, as stated, fails: from the time scale `1/2000` both `slower` and `slower2` store
`1/1000`, whose magnitude is greater. -/
theorem slower_not_slower_counterexample :
    ¬ (|(Cosmographia.slower (sampleApp (1 / 2000) 0)).m_view3d.timeScale| ≤
        |(sampleApp (1 / 2000) 0).m_view3d.timeScale|) ∧
    ¬ (|(Cosmographia.slower2 (sampleApp (1 / 2000) 0)).m_view3d.timeScale| ≤
        |(sampleApp (1 / 2000) 0).m_view3d.timeScale|) := by
  have h1 : (Cosmographia.slower (sampleApp (1 / 2000) 0)).m_view3d.timeScale = 1 / 1000 := by
    norm_num [Cosmographia.slower, sampleApp, UniverseView.timeScale,
      UniverseView.setTimeScale]
  have h2 : (Cosmographia.slower2 (sampleApp (1 / 2000) 0)).m_view3d.timeScale = 1 / 1000 := by
    norm_num [Cosmographia.slower2, sampleApp, UniverseView.timeScale,
      UniverseView.setTimeScale]
  have h0 : (sampleApp (1 / 2000) 0).m_view3d.timeScale = 1 / 2000 := rfl
  rw [h1, h2, h0]
  norm_num [abs_of_pos]

/-- C8, amended: when the current time scale is `0` or has magnitude at least `1.0e-3`, the
magnitude of the time scale after `slower`, and after `slower2`, is not greater than the
current one. -/
theorem slower_not_faster (app : Cosmographia K)
    (h : app.m_view3d.timeScale = 0 ∨ 1.0e-3 ≤ |app.m_view3d.timeScale|) :
    |(Cosmographia.slower app).m_view3d.timeScale| ≤ |app.m_view3d.timeScale| ∧
    |(Cosmographia.slower2 app).m_view3d.timeScale| ≤ |app.m_view3d.timeScale| := by
  have key : ∀ f : K, 0 < f → f ≤ 1 →
      |(if app.m_view3d.timeScale * f > 0.0 then max 1.0e-3 (app.m_view3d.timeScale * f)
        else if app.m_view3d.timeScale * f < 0.0 then
          min (-1.0e-3) (app.m_view3d.timeScale * f)
        else app.m_view3d.timeScale * f)| ≤ |app.m_view3d.timeScale| := by
    intro f hf0 hf1
    have z : (0.0 : K) = 0 := by norm_num
    rw [z]
    generalize app.m_view3d.timeScale = t at h ⊢
    rcases lt_trichotomy t 0 with hneg | hzero | hpos
    · have hx : t * f < 0 := mul_neg_of_neg_of_pos hneg hf0
      have ht : 1.0e-3 ≤ -t := by
        rcases h with h | h
        · exact absurd h hneg.ne
        · rwa [abs_of_neg hneg] at h
      rw [if_neg (not_lt.mpr hx.le), if_pos hx, abs_of_neg hneg,
        abs_of_neg (lt_of_le_of_lt (min_le_right _ _) hx), neg_le_neg_iff, le_min_iff]
      constructor
      · linarith
      · nlinarith
    · subst hzero
      simp
    · have hx : 0 < t * f := mul_pos hpos hf0
      have ht : 1.0e-3 ≤ t := by
        rcases h with h | h
        · exact absurd h hpos.ne'
        · rwa [abs_of_pos hpos] at h
      rw [if_pos hx, abs_of_pos hpos,
        abs_of_pos (lt_of_lt_of_le hx (le_max_right _ _)), max_le_iff]
      constructor
      · exact ht
      · nlinarith
  constructor
  · simpa only [Cosmographia.slower, UniverseView.setTimeScale, UniverseView.timeScale]
      using key 0.1 (by norm_num) (by norm_num)
  · simpa only [Cosmographia.slower2, UniverseView.setTimeScale, UniverseView.timeScale]
      using key 0.5 (by norm_num) (by norm_num)

/-- Witness of C8 as amended, at the time scale `1/1000`. -/
theorem slower_not_faster_witness :
    |(Cosmographia.slower (sampleApp (1 / 1000) 0)).m_view3d.timeScale| ≤
      |(sampleApp (1 / 1000) 0).m_view3d.timeScale| ∧
    |(Cosmographia.slower2 (sampleApp (1 / 1000) 0)).m_view3d.timeScale| ≤
      |(sampleApp (1 / 1000) 0).m_view3d.timeScale| :=
  slower_not_faster (sampleApp (1 / 1000) 0)
    (Or.inr (by norm_num [sampleApp, UniverseView.timeScale, abs_of_pos]))

/-- C9: `reverseTime` sets the time scale to the negation of the current one, whatever it is;
the magnitude is unchanged, and a second `reverseTime` restores the original time scale (and
the whole state). -/
theorem reverseTime_negates (app : Cosmographia K) :
    (Cosmographia.reverseTime app).m_view3d.timeScale = -app.m_view3d.timeScale ∧
    |(Cosmographia.reverseTime app).m_view3d.timeScale| = |app.m_view3d.timeScale| ∧
    (Cosmographia.reverseTime (Cosmographia.reverseTime app)).m_view3d.timeScale =
      app.m_view3d.timeScale ∧
    Cosmographia.reverseTime (Cosmographia.reverseTime app) = app := by
  obtain ⟨⟨u, c, st, ts, p, sel⟩⟩ := app
  simp [Cosmographia.reverseTime, UniverseView.setTimeScale, UniverseView.timeScale]

end TimeTheorems

section YearTheorems

variable {K D : Type}

/-- C10: `backYear` sets the simulation time to the TDB seconds of the date built from the
year of `d` minus one and the month, day, hour, minute and second of `d`, where `d` is the UTC
date of the current simulation time; `forwardYear` does the same with the year plus one.
Nothing else of `d` reaches the new date: two states whose dates agree on these six
components get the same simulation time. -/
theorem backYear_forwardYear_date (cal : GregorianDateApi K D) (app : Cosmographia K) :
    (Cosmographia.backYear cal app).m_view3d.simulationTime =
      cal.toTDBSec (cal.mk6
        (cal.year (cal.UTCDateFromTDBSec app.m_view3d.simulationTime) - 1)
        (cal.month (cal.UTCDateFromTDBSec app.m_view3d.simulationTime))
        (cal.day (cal.UTCDateFromTDBSec app.m_view3d.simulationTime))
        (cal.hour (cal.UTCDateFromTDBSec app.m_view3d.simulationTime))
        (cal.minute (cal.UTCDateFromTDBSec app.m_view3d.simulationTime))
        (cal.second (cal.UTCDateFromTDBSec app.m_view3d.simulationTime))) ∧
    (Cosmographia.forwardYear cal app).m_view3d.simulationTime =
      cal.toTDBSec (cal.mk6
        (cal.year (cal.UTCDateFromTDBSec app.m_view3d.simulationTime) + 1)
        (cal.month (cal.UTCDateFromTDBSec app.m_view3d.simulationTime))
        (cal.day (cal.UTCDateFromTDBSec app.m_view3d.simulationTime))
        (cal.hour (cal.UTCDateFromTDBSec app.m_view3d.simulationTime))
        (cal.minute (cal.UTCDateFromTDBSec app.m_view3d.simulationTime))
        (cal.second (cal.UTCDateFromTDBSec app.m_view3d.simulationTime))) ∧
    (∀ other : Cosmographia K,
      cal.year (cal.UTCDateFromTDBSec other.m_view3d.simulationTime) =
        cal.year (cal.UTCDateFromTDBSec app.m_view3d.simulationTime) →
      cal.month (cal.UTCDateFromTDBSec other.m_view3d.simulationTime) =
        cal.month (cal.UTCDateFromTDBSec app.m_view3d.simulationTime) →
      cal.day (cal.UTCDateFromTDBSec other.m_view3d.simulationTime) =
        cal.day (cal.UTCDateFromTDBSec app.m_view3d.simulationTime) →
      cal.hour (cal.UTCDateFromTDBSec other.m_view3d.simulationTime) =
        cal.hour (cal.UTCDateFromTDBSec app.m_view3d.simulationTime) →
      cal.minute (cal.UTCDateFromTDBSec other.m_view3d.simulationTime) =
        cal.minute (cal.UTCDateFromTDBSec app.m_view3d.simulationTime) →
      cal.second (cal.UTCDateFromTDBSec other.m_view3d.simulationTime) =
        cal.second (cal.UTCDateFromTDBSec app.m_view3d.simulationTime) →
      (Cosmographia.backYear cal other).m_view3d.simulationTime =
        (Cosmographia.backYear cal app).m_view3d.simulationTime ∧
      (Cosmographia.forwardYear cal other).m_view3d.simulationTime =
        (Cosmographia.forwardYear cal app).m_view3d.simulationTime) := by
  refine ⟨rfl, rfl, ?_⟩
  intro other hy hmo hd hh hmi hs
  simp only [UniverseView.simulationTime] at hy hmo hd hh hmi hs
  simp only [Cosmographia.backYear, Cosmographia.forwardYear, UniverseView.setSimulationTime,
    UniverseView.simulationTime, hy, hmo, hd, hh, hmi, hs, and_self]

/-- Witness of C10: in the sample calendar the simulation times `34563723` and
`34563723 + 1/2` have dates that differ in the microseconds only, and `backYear` and
`forwardYear` send both to the same simulation time. -/
theorem backYear_forwardYear_date_witness :
    (sampleCalendar.UTCDateFromTDBSec (34563723 + 1 / 2)).usec ≠
      (sampleCalendar.UTCDateFromTDBSec 34563723).usec ∧
    (Cosmographia.backYear sampleCalendar (sampleApp 1 (34563723 + 1 / 2))).m_view3d.simulationTime
      = (Cosmographia.backYear sampleCalendar (sampleApp 1 34563723)).m_view3d.simulationTime ∧
    (Cosmographia.forwardYear sampleCalendar
        (sampleApp 1 (34563723 + 1 / 2))).m_view3d.simulationTime
      = (Cosmographia.forwardYear sampleCalendar (sampleApp 1 34563723)).m_view3d.simulationTime :=
  ⟨by
    have h1 : ⌊(34563723 + 1 / 2 : ℚ)⌋ = 34563723 := by norm_num
    have h2 : ⌊(34563723 : ℚ)⌋ = 34563723 := by norm_num
    simp only [sampleCalendar, h1, h2]
    norm_num,
   (backYear_forwardYear_date sampleCalendar (sampleApp 1 34563723)).2.2
    (sampleApp 1 (34563723 + 1 / 2))
    (by norm_num [sampleCalendar, sampleApp, UniverseView.simulationTime])
    (by norm_num [sampleCalendar, sampleApp, UniverseView.simulationTime])
    (by norm_num [sampleCalendar, sampleApp, UniverseView.simulationTime])
    (by norm_num [sampleCalendar, sampleApp, UniverseView.simulationTime])
    (by norm_num [sampleCalendar, sampleApp, UniverseView.simulationTime])
    (by norm_num [sampleCalendar, sampleApp, UniverseView.simulationTime])⟩

end YearTheorems

/-! ## Theorems: the Keplerian trajectory loader -/

section KeplerianTheorems

variable {K : Type} [LinearOrderedField K]

/-- C11: `loadKeplerianTrajectory` returns NULL when `"semiMajorAxis"` is absent, does not
convert to a number, or converts to a value that is not positive; and, with a positive
semimajor axis, when `"period"` is absent, does not convert to a number, or converts to a value
that is not positive.  `doubleValue` yields the converted number when the conversion succeeds
and the given default otherwise. -/
theorem loadKeplerianTrajectory_rejects (v : Vesta K) (qt : QtConv K) (info : QVariantMap K) :
    (info.contains "semiMajorAxis" = false →
      loadKeplerianTrajectory v qt info = Returned.value Ptr.null) ∧
    ((info.value "semiMajorAxis").toDouble qt = none →
      loadKeplerianTrajectory v qt info = Returned.value Ptr.null) ∧
    (∀ sma, (info.value "semiMajorAxis").toDouble qt = some sma → sma ≤ 0 →
      loadKeplerianTrajectory v qt info = Returned.value Ptr.null) ∧
    (∀ sma, (info.value "semiMajorAxis").toDouble qt = some sma → 0 < sma →
      (info.contains "period" = false →
        loadKeplerianTrajectory v qt info = Returned.value Ptr.null) ∧
      ((info.value "period").toDouble qt = none →
        loadKeplerianTrajectory v qt info = Returned.value Ptr.null) ∧
      (∀ period, (info.value "period").toDouble qt = some period → period ≤ 0 →
        loadKeplerianTrajectory v qt info = Returned.value Ptr.null)) ∧
    (∀ (d : QVariant K) (defaultValue x : K), d.toDouble qt = some x →
      doubleValue qt d defaultValue = x) ∧
    (∀ (d : QVariant K) (defaultValue : K), d.toDouble qt = none →
      doubleValue qt d defaultValue = defaultValue) := by
  have z : (0.0 : K) = 0 := by norm_num
  have hsmaNone : (info.value "semiMajorAxis").toDouble qt = none →
      loadKeplerianTrajectory v qt info = Returned.value Ptr.null := by
    intro h
    unfold loadKeplerianTrajectory
    simp [doubleValue, h]
  have hperNone : ∀ sma, (info.value "semiMajorAxis").toDouble qt = some sma →
      (info.value "period").toDouble qt = none →
      loadKeplerianTrajectory v qt info = Returned.value Ptr.null := by
    intro sma hs h
    unfold loadKeplerianTrajectory
    simp [doubleValue, hs, h]
  refine ⟨fun h => hsmaNone ?_, hsmaNone, ?_, ?_, ?_, ?_⟩
  · rw [QVariantMap.value_of_not_contains info _ h]; rfl
  · intro sma hs hle
    unfold loadKeplerianTrajectory
    simp [doubleValue, hs, z, hle]
  · intro sma hs hpos
    refine ⟨fun h => hperNone sma hs ?_, hperNone sma hs, ?_⟩
    · rw [QVariantMap.value_of_not_contains info _ h]; rfl
    · intro period hp hle
      unfold loadKeplerianTrajectory
      simp [doubleValue, hs, hp, z, hle]
  · intro d defaultValue x h
    simp [doubleValue, h]
  · intro d defaultValue h
    simp [doubleValue, h]

/-- Witness of C11: maps without semimajor axis, with a list, with `-1` and with `0` as
semimajor axis; maps with semimajor axis `1` and no period, a text that is not a number as
period, and the period `-1` given as text. -/
theorem loadKeplerianTrajectory_rejects_witness :
    loadKeplerianTrajectory sampleVesta sampleQt [("period", QVariant.number 1)] =
      Returned.value Ptr.null ∧
    loadKeplerianTrajectory sampleVesta sampleQt
      [("semiMajorAxis", QVariant.list []), ("period", QVariant.number 1)] =
      Returned.value Ptr.null ∧
    loadKeplerianTrajectory sampleVesta sampleQt
      [("semiMajorAxis", QVariant.number (-1)), ("period", QVariant.number 1)] =
      Returned.value Ptr.null ∧
    loadKeplerianTrajectory sampleVesta sampleQt
      [("semiMajorAxis", QVariant.number 0), ("period", QVariant.number 1)] =
      Returned.value Ptr.null ∧
    loadKeplerianTrajectory sampleVesta sampleQt [("semiMajorAxis", QVariant.number 1)] =
      Returned.value Ptr.null ∧
    loadKeplerianTrajectory sampleVesta sampleQt
      [("semiMajorAxis", QVariant.number 1), ("period", QVariant.string "a year")] =
      Returned.value Ptr.null ∧
    loadKeplerianTrajectory sampleVesta sampleQt
      [("semiMajorAxis", QVariant.number 1), ("period", QVariant.string "-1")] =
      Returned.value Ptr.null :=
  ⟨(loadKeplerianTrajectory_rejects sampleVesta sampleQt
      [("period", QVariant.number 1)]).1 (by decide),
   (loadKeplerianTrajectory_rejects sampleVesta sampleQt
      [("semiMajorAxis", QVariant.list []), ("period", QVariant.number 1)]).2.1 rfl,
   (loadKeplerianTrajectory_rejects sampleVesta sampleQt
      [("semiMajorAxis", QVariant.number (-1)), ("period", QVariant.number 1)]).2.2.1
      (-1) rfl (by norm_num),
   (loadKeplerianTrajectory_rejects sampleVesta sampleQt
      [("semiMajorAxis", QVariant.number 0), ("period", QVariant.number 1)]).2.2.1
      0 rfl (le_refl 0),
   ((loadKeplerianTrajectory_rejects sampleVesta sampleQt
      [("semiMajorAxis", QVariant.number 1)]).2.2.2.1 1 rfl one_pos).1 (by decide),
   ((loadKeplerianTrajectory_rejects sampleVesta sampleQt
      [("semiMajorAxis", QVariant.number 1), ("period", QVariant.string "a year")]).2.2.2.1
      1 rfl one_pos).2.1 rfl,
   ((loadKeplerianTrajectory_rejects sampleVesta sampleQt
      [("semiMajorAxis", QVariant.number 1), ("period", QVariant.string "-1")]).2.2.2.1
      1 rfl one_pos).2.2 (-1) rfl (by norm_num)⟩

/-- C12, on the code: when `"semiMajorAxis"` and `"period"` both convert to positive numbers,
`loadKeplerianTrajectory` constructs a `KeplerianTrajectory` and reaches its closing brace; it
executes no `return`, so it does not return the trajectory, and what `loadTrajectory` passes
on for a map of type `"Keplerian"` is indeterminate. -/
theorem loadKeplerianTrajectory_no_return (v : Vesta K) (qt : QtConv K) (info : QVariantMap K)
    (hsma : 0 < doubleValue qt (info.value "semiMajorAxis") 0.0)
    (hperiod : 0 < doubleValue qt (info.value "period") 0.0) :
    (∃ trajectory, loadKeplerianTrajectory v qt info = Returned.fellOff trajectory) ∧
    (∀ p, loadKeplerianTrajectory v qt info ≠ Returned.value p) ∧
    (loadKeplerianTrajectory v qt info).received = Ptr.indeterminate ∧
    ((info.value "type").toString qt = "Keplerian" →
      loadTrajectory v qt info = Ptr.indeterminate) := by
  have hrun : ∃ trajectory, loadKeplerianTrajectory v qt info = Returned.fellOff trajectory := by
    have z : (0.0 : K) = 0 := by norm_num
    unfold loadKeplerianTrajectory
    rw [z] at hsma hperiod ⊢
    simp only [if_neg (not_le.mpr hsma), if_neg (not_le.mpr hperiod)]
    exact ⟨_, rfl⟩
  obtain ⟨trajectory, htraj⟩ := hrun
  refine ⟨⟨trajectory, htraj⟩, ?_, ?_, ?_⟩
  · intro p hp
    rw [htraj] at hp
    cases hp
  · rw [htraj]; rfl
  · intro hty
    unfold loadTrajectory
    simp [hty, htraj, Returned.received]

/-- C12 at a failing input: for the map with type `"Keplerian"`, semimajor axis `1` and period
`1`, `loadKeplerianTrajectory` ends without `return` and `loadTrajectory` yields an
indeterminate pointer, not the address of a trajectory. -/
theorem loadKeplerianTrajectory_no_return_witness :
    (∀ p, loadKeplerianTrajectory sampleVesta sampleQt
      [("type", QVariant.string "Keplerian"), ("semiMajorAxis", QVariant.number 1),
        ("period", QVariant.number 1)] ≠ Returned.value p) ∧
    loadTrajectory sampleVesta sampleQt
      [("type", QVariant.string "Keplerian"), ("semiMajorAxis", QVariant.number 1),
        ("period", QVariant.number 1)] = Ptr.indeterminate :=
  ⟨(loadKeplerianTrajectory_no_return sampleVesta sampleQt
      [("type", QVariant.string "Keplerian"), ("semiMajorAxis", QVariant.number 1),
        ("period", QVariant.number 1)]
      (show (0 : ℚ) < 1 from one_pos)
      (show (0 : ℚ) < 1 from one_pos)).2.1,
   (loadKeplerianTrajectory_no_return sampleVesta sampleQt
      [("type", QVariant.string "Keplerian"), ("semiMajorAxis", QVariant.number 1),
        ("period", QVariant.number 1)]
      (show (0 : ℚ) < 1 from one_pos)
      (show (0 : ℚ) < 1 from one_pos)).2.2.2
      (by decide)⟩

/-- C14: for a map with positive semimajor axis and period, the elements that
`loadKeplerianTrajectory` builds have as inclination the `"eccentricity"` value converted from
degrees to radians, and as mean motion 360 degrees in radians (that is two pi, when
`toRadians d` is `d * pi / 180`) divided by the period converted from days to seconds.  A
second such map that agrees with the first on every key other than `"inclination"` and
`"semiMajorAxis"` gives the same elements. -/
theorem loadKeplerianTrajectory_elements (v : Vesta K) (qt : QtConv K) (info : QVariantMap K)
    (hsma : 0 < doubleValue qt (info.value "semiMajorAxis") 0.0)
    (hperiod : 0 < doubleValue qt (info.value "period") 0.0) :
    ∃ elements : vesta.OrbitalElements K,
      loadKeplerianTrajectory v qt info =
        Returned.fellOff (vesta.Trajectory.keplerian elements) ∧
      elements.inclination = v.toRadians (doubleValue qt (info.value "eccentricity") 0.0) ∧
      elements.meanMotion =
        v.toRadians 360.0 / v.daysToSeconds (doubleValue qt (info.value "period") 0.0) ∧
      (∀ pi : K, (∀ d, v.toRadians d = d * pi / 180) →
        elements.meanMotion =
          2 * pi / v.daysToSeconds (doubleValue qt (info.value "period") 0.0)) ∧
      (∀ other : QVariantMap K,
        0 < doubleValue qt (other.value "semiMajorAxis") 0.0 →
        (∀ key, key ≠ "inclination" → key ≠ "semiMajorAxis" →
          other.value key = info.value key) →
        loadKeplerianTrajectory v qt other =
          Returned.fellOff (vesta.Trajectory.keplerian elements)) := by
  have z : (0.0 : K) = 0 := by norm_num
  have run : ∀ m : QVariantMap K, 0 < doubleValue qt (m.value "semiMajorAxis") 0.0 →
      0 < doubleValue qt (m.value "period") 0.0 →
      loadKeplerianTrajectory v qt m = Returned.fellOff (vesta.Trajectory.keplerian
        { eccentricity := doubleValue qt (m.value "eccentricity") 0.0
          inclination := v.toRadians (doubleValue qt (m.value "eccentricity") 0.0)
          meanMotion :=
            v.toRadians 360.0 / v.daysToSeconds (doubleValue qt (m.value "period") 0.0)
          longitudeOfAscendingNode :=
            v.toRadians (doubleValue qt (m.value "ascendingNode") 0.0)
          argumentOfPeriapsis :=
            v.toRadians (doubleValue qt (m.value "argumentOfPeriapsis") 0.0)
          meanAnomalyAtEpoch := v.toRadians (doubleValue qt (m.value "meanAnomaly") 0.0) }) := by
    intro m h1 h2
    unfold loadKeplerianTrajectory
    have h1' : ¬ doubleValue qt (m.value "semiMajorAxis") 0.0 ≤ 0.0 := by
      intro hle
      exact absurd (lt_of_lt_of_le h1 hle) (by norm_num)
    have h2' : ¬ doubleValue qt (m.value "period") 0.0 ≤ 0.0 := by
      intro hle
      exact absurd (lt_of_lt_of_le h2 hle) (by norm_num)
    simp only [if_neg h1', if_neg h2']
  refine ⟨_, run info hsma hperiod, rfl, rfl, ?_, ?_⟩
  · intro pi hrad
    show v.toRadians 360.0 / _ = _
    rw [hrad]
    congr 1
    norm_num
    ring
  · intro other hosma hagree
    have hp : other.value "period" = info.value "period" :=
      hagree "period" (by decide) (by decide)
    rw [run other hosma (by rw [hp]; exact hperiod)]
    rw [hagree "period" (by decide) (by decide),
      hagree "eccentricity" (by decide) (by decide),
      hagree "ascendingNode" (by decide) (by decide),
      hagree "argumentOfPeriapsis" (by decide) (by decide),
      hagree "meanAnomaly" (by decide) (by decide)]

/-- Witness of C14: two maps with positive semimajor axis and period that differ in
`"semiMajorAxis"` and in `"inclination"` only; both give the elements of the first. -/
theorem loadKeplerianTrajectory_elements_witness :
    ∃ elements : vesta.OrbitalElements ℚ,
      loadKeplerianTrajectory sampleVesta sampleQt
        [("semiMajorAxis", QVariant.number 1), ("period", QVariant.number 2),
          ("eccentricity", QVariant.number 90), ("inclination", QVariant.number 5)] =
        Returned.fellOff (vesta.Trajectory.keplerian elements) ∧
      loadKeplerianTrajectory sampleVesta sampleQt
        [("semiMajorAxis", QVariant.number 7), ("period", QVariant.number 2),
          ("eccentricity", QVariant.number 90), ("inclination", QVariant.number 60)] =
        Returned.fellOff (vesta.Trajectory.keplerian elements) ∧
      elements.inclination = sampleVesta.toRadians 90 := by
  obtain ⟨elements, hrun, hincl, _, _, hother⟩ :=
    loadKeplerianTrajectory_elements sampleVesta sampleQt
      [("semiMajorAxis", QVariant.number 1), ("period", QVariant.number 2),
        ("eccentricity", QVariant.number 90), ("inclination", QVariant.number 5)]
      (show (0 : ℚ) < 1 from one_pos) (show (0 : ℚ) < 2 from two_pos)
  refine ⟨elements, hrun, hother _ (show (0 : ℚ) < 7 by norm_num) ?_, hincl⟩
  intro key h1 h2
  simp [QVariantMap.value, List.lookup, beq_false_of_ne h1, beq_false_of_ne h2]

end KeplerianTheorems

/-! ## Theorems: `loadArc` and the effects of a run -/

section ArcTheorems

variable {K : Type} [LinearOrderedField K]

/-- C13: for every map, the arc that `loadArc` returns has the rotation model, the trajectory
frame and the body frame of a new `Arc`, whatever the entries `"rotationModel"`,
`"trajectoryFrame"` and `"bodyFrame"` are; it also has the trajectory of a new `Arc` unless
`"trajectory"` is a map whose type is `"Keplerian"`; and a map that differs in the `"center"`
entry only gives the same arc.  `loadArc` does return an arc on every map that does not reach
the missing `return` of `loadKeplerianTrajectory`; on the maps that reach it there is no
returned arc. -/
theorem loadArc_members (v : Vesta K) (qt : QtConv K) (map : QVariantMap K) :
    (¬ reachesMissingReturn qt map → ∃ arc, loadArc v qt map = Run.returns (some arc)) ∧
    (∀ result, loadArc v qt map = Run.returns result →
      ∃ arc : vesta.Arc K, result = some arc ∧
        arc.m_rotationModel = v.newArc.m_rotationModel ∧
        arc.m_trajectoryFrame = v.newArc.m_trajectoryFrame ∧
        arc.m_bodyFrame = v.newArc.m_bodyFrame ∧
        (¬ ((map.value "trajectory").type = QVariantType.Map ∧
            ((map.value "trajectory").toMap.value "type").toString qt = "Keplerian") →
          arc.m_trajectory = v.newArc.m_trajectory) ∧
        (∀ other : QVariantMap K, (∀ key, key ≠ "center" → other.value key = map.value key) →
          loadArc v qt other = Run.returns (some arc))) := by
  constructor
  · intro hclean
    exact ⟨v.newArc, by rw [loadArc_eq, if_neg hclean]⟩
  · intro result hresult
    rw [loadArc_eq] at hresult
    by_cases hreach : reachesMissingReturn qt map
    · rw [if_pos hreach] at hresult
      cases hresult
    · rw [if_neg hreach] at hresult
      cases hresult
      refine ⟨v.newArc, rfl, rfl, rfl, rfl, fun _ => rfl, fun other hagree => ?_⟩
      have hsame : reachesMissingReturn qt other ↔ reachesMissingReturn qt map := by
        unfold reachesMissingReturn
        rw [hagree "trajectory" (by decide)]
      rw [loadArc_eq, if_neg (fun h => hreach (hsame.mp h))]

/-- Witness of C13: a map with a fixed trajectory, a rotation model, both frames and a center,
and the same map with another center; both calls return one arc, whose trajectory is that of
a new `Arc`. -/
theorem loadArc_members_witness :
    ∃ arc : vesta.Arc ℚ,
      loadArc sampleVesta sampleQt
        [("center", QVariant.string "Sun"),
          ("trajectory", QVariant.map [("type", QVariant.string "Fixed")]),
          ("rotationModel", QVariant.map [("type", QVariant.string "Uniform")]),
          ("trajectoryFrame", QVariant.string "EclipticJ2000"),
          ("bodyFrame", QVariant.string "EquatorJ2000")] = Run.returns (some arc) ∧
      loadArc sampleVesta sampleQt
        [("center", QVariant.string "Earth"),
          ("trajectory", QVariant.map [("type", QVariant.string "Fixed")]),
          ("rotationModel", QVariant.map [("type", QVariant.string "Uniform")]),
          ("trajectoryFrame", QVariant.string "EclipticJ2000"),
          ("bodyFrame", QVariant.string "EquatorJ2000")] = Run.returns (some arc) ∧
      arc.m_trajectory = sampleVesta.newArc.m_trajectory := by
  obtain ⟨arc, harc⟩ :=
    (loadArc_members sampleVesta sampleQt
      [("center", QVariant.string "Sun"),
        ("trajectory", QVariant.map [("type", QVariant.string "Fixed")]),
        ("rotationModel", QVariant.map [("type", QVariant.string "Uniform")]),
        ("trajectoryFrame", QVariant.string "EclipticJ2000"),
        ("bodyFrame", QVariant.string "EquatorJ2000")]).1
      (fun h => absurd h.2.1 (by decide))
  obtain ⟨arc', harc', _, _, _, htraj, hcenter⟩ :=
    (loadArc_members sampleVesta sampleQt
      [("center", QVariant.string "Sun"),
        ("trajectory", QVariant.map [("type", QVariant.string "Fixed")]),
        ("rotationModel", QVariant.map [("type", QVariant.string "Uniform")]),
        ("trajectoryFrame", QVariant.string "EclipticJ2000"),
        ("bodyFrame", QVariant.string "EquatorJ2000")]).2 (some arc) harc
  cases harc'
  refine ⟨arc, harc, hcenter _ ?_, htraj ?_⟩
  · intro key hkey
    simp [QVariantMap.value, List.lookup, beq_false_of_ne hkey]
  · intro h
    exact absurd h.2 (by decide)

/-- C15, on the code: on a map that reaches the missing `return` of `loadKeplerianTrajectory`,
`loadArc` has undefined behaviour and returns nothing.  On every other map it returns a
non-null arc.  It never returns NULL, so no step of the loop of `loadSolarSystem` whose
behaviour is defined deletes a body, and every run whose behaviour is defined deletes no body
and leaves each body it has constructed with exactly one arc. -/
theorem loadArc_never_null (v : Vesta K) (qt : QtConv K) :
    (∀ map : QVariantMap K, reachesMissingReturn qt map → loadArc v qt map = Run.undefined) ∧
    (∀ map : QVariantMap K, ¬ reachesMissingReturn qt map →
      ∃ arc, loadArc v qt map = Run.returns (some arc)) ∧
    (∀ map : QVariantMap K, loadArc v qt map ≠ Run.returns none) ∧
    (∀ (done next : LoadEffects K) (item : QVariant K),
      Cosmographia.loadSolarSystemItem v qt done item = Run.returns next →
      next.deleted = done.deleted) ∧
    (∀ (desk : Desktop K) (app : Cosmographia K) (effects : LoadEffects K),
      (Cosmographia.loadSolarSystem v qt desk app).2 = Run.returns effects →
      effects.deleted = 0 ∧
      effects.bodies.length = effects.arcs ∧
      ∀ body ∈ effects.bodies, ∃ arc, body.chronology = [arc]) := by
  refine ⟨fun map h => by rw [loadArc_eq, if_pos h],
    fun map h => ⟨v.newArc, by rw [loadArc_eq, if_neg h]⟩, fun map h => ?_,
    fun done next item hstep => ?_, fun desk app effects hrun => ?_⟩
  · rw [loadArc_eq] at h
    split_ifs at h
    cases h
  · by_cases hmap : item.type ≠ QVariantType.Map
    · rw [Cosmographia.loadSolarSystemItem_of_not_map v qt done item hmap] at hstep
      cases hstep
      rfl
    · cases item with
      | map entries =>
        rw [Cosmographia.loadSolarSystemItem_of_map] at hstep
        split_ifs at hstep
        cases hstep
        rfl
      | invalid => exact absurd (by simp [QVariant.type]) hmap
      | bool b => exact absurd (by simp [QVariant.type]) hmap
      | number x => exact absurd (by simp [QVariant.type]) hmap
      | string str => exact absurd (by simp [QVariant.type]) hmap
      | list sub => exact absurd (by simp [QVariant.type]) hmap
  · rcases (Cosmographia.loadSolarSystem_cases v qt desk app).2 with ⟨shown, h⟩ | ⟨items, h⟩
    · rw [h] at hrun
      cases hrun
      exact ⟨rfl, rfl, fun body hb => by cases hb⟩
    · rw [h] at hrun
      by_cases hreach : ∃ m ∈ mapItems items, reachesMissingReturn qt m
      · rw [Cosmographia.loadSolarSystemLoop_of_reaching v qt items _ hreach] at hrun
        cases hrun
      · have hclean : ∀ m ∈ mapItems items, ¬ reachesMissingReturn qt m :=
          fun m hm hr => hreach ⟨m, hm, hr⟩
        rw [Cosmographia.loadSolarSystemLoop_of_clean v qt items _ hclean] at hrun
        cases hrun
        refine ⟨rfl, by simp [LoadEffects.nothing], fun body hb => ?_⟩
        simp only [LoadEffects.nothing, List.nil_append, List.mem_map] at hb
        obtain ⟨_, _, rfl⟩ := hb
        exact ⟨v.newArc, rfl⟩

/-- C15 at a failing input: on the body whose trajectory is Keplerian with semimajor axis `1`
and period `1`, the call of `loadArc` has no result. -/
theorem loadArc_never_null_witness :
    loadArc sampleVesta sampleQt
      [("trajectory", QVariant.map [("type", QVariant.string "Keplerian"),
        ("semiMajorAxis", QVariant.number 1), ("period", QVariant.number 1)])] =
      Run.undefined :=
  (loadArc_never_null sampleVesta sampleQt).1
    [("trajectory", QVariant.map [("type", QVariant.string "Keplerian"),
      ("semiMajorAxis", QVariant.number 1), ("period", QVariant.number 1)])]
    ⟨by decide, by decide, show (0 : ℚ) < 1 from one_pos, show (0 : ℚ) < 1 from one_pos⟩

/-- C16: `loadSolarSystem` returns the window as it was, for every file: the time scale, the
simulation time, the paused flag, the selected body, the universe and the catalog of the view
are unchanged, so the bodies of the run are in neither of the last two. -/
theorem loadSolarSystem_keeps_state (v : Vesta K) (qt : QtConv K) (desk : Desktop K)
    (app : Cosmographia K) :
    (Cosmographia.loadSolarSystem v qt desk app).1 = app ∧
    (Cosmographia.loadSolarSystem v qt desk app).1.m_view3d.timeScale =
      app.m_view3d.timeScale ∧
    (Cosmographia.loadSolarSystem v qt desk app).1.m_view3d.simulationTime =
      app.m_view3d.simulationTime ∧
    (Cosmographia.loadSolarSystem v qt desk app).1.m_view3d.isPaused =
      app.m_view3d.isPaused ∧
    (Cosmographia.loadSolarSystem v qt desk app).1.m_view3d.m_selectedBody =
      app.m_view3d.m_selectedBody ∧
    (Cosmographia.loadSolarSystem v qt desk app).1.m_view3d.m_universe =
      app.m_view3d.m_universe ∧
    (Cosmographia.loadSolarSystem v qt desk app).1.m_view3d.m_catalog =
      app.m_view3d.m_catalog := by
  have h := (Cosmographia.loadSolarSystem_cases v qt desk app).1
  rw [h]
  exact ⟨rfl, rfl, rfl, rfl, rfl, rfl, rfl⟩

end ArcTheorems

/-! ## Auxiliary facts on the time controls -/

section AuxTime

variable {K : Type} [LinearOrderedField K]

/-- The clamped product of `faster` and `faster2`, for a factor `c` that is at least one: it
stays within the magnitudes `1.0e-3` and `1.0e7` and keeps the sign of the time scale. -/
theorem clamped_product_facts (t c r : K) (hc : 1 ≤ c)
    (hr : r = if t * c < -1.0e7 then -1.0e7 else if t * c > 1.0e7 then 1.0e7 else t * c) :
    (1.0e-3 ≤ |t| → |t| ≤ 1.0e7 → 1.0e-3 ≤ |r| ∧ |r| ≤ 1.0e7) ∧
    (0 < t → 0 < r) ∧ (t < 0 → r < 0) ∧ (t = 0 → r = 0) := by
  have hM : (1.0e7 : K) = 10000000 := by norm_num
  have hm : (1.0e-3 : K) = 1 / 1000 := by norm_num
  rw [hM] at hr
  rw [hM, hm]
  rcases lt_trichotomy t 0 with hneg | hzero | hpos
  · have hx : t * c < 0 := mul_neg_of_neg_of_pos hneg (by linarith)
    have hxt : t * c ≤ t := by nlinarith
    have hrneg : r < 0 := by
      rw [hr]; split_ifs <;> linarith
    refine ⟨fun hlo hhi => ?_, fun h => absurd h (not_lt.mpr hneg.le), fun _ => hrneg,
      fun h => absurd h hneg.ne⟩
    rw [abs_of_neg hneg] at hlo hhi
    rw [abs_of_neg hrneg, hr]
    split_ifs <;> constructor <;> linarith
  · subst hzero
    have hr0 : r = 0 := by
      rw [hr]; norm_num
    refine ⟨fun hlo _ => ?_, fun h => absurd h (lt_irrefl _), fun h => absurd h (lt_irrefl _),
      fun _ => hr0⟩
    rw [abs_zero] at hlo
    exact absurd hlo (by norm_num)
  · have hx : 0 < t * c := mul_pos hpos (by linarith)
    have hxt : t ≤ t * c := by nlinarith
    have hrpos : 0 < r := by
      rw [hr]; split_ifs <;> linarith
    refine ⟨fun hlo hhi => ?_, fun _ => hrpos, fun h => absurd h (not_lt.mpr hpos.le),
      fun h => absurd h hpos.ne'⟩
    rw [abs_of_pos hpos] at hlo hhi
    rw [abs_of_pos hrpos, hr]
    split_ifs <;> constructor <;> linarith

/-- The floored product of `slower` and `slower2`, for a factor `f` between zero and one: it
stays within the magnitudes `1.0e-3` and `1.0e7` and keeps the sign of the time scale. -/
theorem floored_product_facts (t f r : K) (hf0 : 0 < f) (hf1 : f ≤ 1)
    (hr : r = if t * f > 0.0 then max 1.0e-3 (t * f)
      else if t * f < 0.0 then min (-1.0e-3) (t * f) else t * f) :
    (1.0e-3 ≤ |t| → |t| ≤ 1.0e7 → 1.0e-3 ≤ |r| ∧ |r| ≤ 1.0e7) ∧
    (0 < t → 0 < r) ∧ (t < 0 → r < 0) ∧ (t = 0 → r = 0) := by
  have hM : (1.0e7 : K) = 10000000 := by norm_num
  have hm : (1.0e-3 : K) = 1 / 1000 := by norm_num
  have z : (0.0 : K) = 0 := by norm_num
  rw [hm, z] at hr
  rw [hM, hm]
  rcases lt_trichotomy t 0 with hneg | hzero | hpos
  · have hx : t * f < 0 := mul_neg_of_neg_of_pos hneg hf0
    have hxt : t ≤ t * f := by nlinarith
    rw [if_neg (not_lt.mpr hx.le), if_pos hx] at hr
    have hle : r ≤ -(1 / 1000) := hr ▸ min_le_left _ _
    have hrneg : r < 0 := by linarith
    refine ⟨fun hlo hhi => ?_, fun h => absurd h (not_lt.mpr hneg.le), fun _ => hrneg,
      fun h => absurd h hneg.ne⟩
    rw [abs_of_neg hneg] at hlo hhi
    rw [abs_of_neg hrneg]
    have hge' : t ≤ r := by
      rw [hr, le_min_iff]
      exact ⟨by linarith, hxt⟩
    constructor <;> linarith
  · subst hzero
    have hr0 : r = 0 := by
      rw [hr]; simp
    refine ⟨fun hlo _ => ?_, fun h => absurd h (lt_irrefl _), fun h => absurd h (lt_irrefl _),
      fun _ => hr0⟩
    rw [abs_zero] at hlo
    exact absurd hlo (by norm_num)
  · have hx : 0 < t * f := mul_pos hpos hf0
    have hxt : t * f ≤ t := by nlinarith
    rw [if_pos hx] at hr
    have hge : 1 / 1000 ≤ r := hr ▸ le_max_left _ _
    have hrpos : 0 < r := by linarith
    refine ⟨fun hlo hhi => ?_, fun _ => hrpos, fun h => absurd h (not_lt.mpr hpos.le),
      fun h => absurd h hpos.ne'⟩
    rw [abs_of_pos hpos] at hlo hhi
    rw [abs_of_pos hrpos]
    have hle : r ≤ t := by
      rw [hr, max_le_iff]
      exact ⟨hlo, hxt⟩
    constructor <;> linarith

end AuxTime

/-! ## Theorems: the range and the direction of the time scale -/

section TimeRangeTheorems

variable {K : Type} [LinearOrderedField K]

/-- C17: when the magnitude of the time scale is between `1.0e-3` and `1.0e7`, it is again
between `1.0e-3` and `1.0e7` after `faster`, `slower`, `faster2`, `slower2` and
`reverseTime`. -/
theorem timeScale_range_closed (app : Cosmographia K)
    (hlo : 1.0e-3 ≤ |app.m_view3d.timeScale|) (hhi : |app.m_view3d.timeScale| ≤ 1.0e7) :
    (1.0e-3 ≤ |(Cosmographia.faster app).m_view3d.timeScale| ∧
      |(Cosmographia.faster app).m_view3d.timeScale| ≤ 1.0e7) ∧
    (1.0e-3 ≤ |(Cosmographia.slower app).m_view3d.timeScale| ∧
      |(Cosmographia.slower app).m_view3d.timeScale| ≤ 1.0e7) ∧
    (1.0e-3 ≤ |(Cosmographia.faster2 app).m_view3d.timeScale| ∧
      |(Cosmographia.faster2 app).m_view3d.timeScale| ≤ 1.0e7) ∧
    (1.0e-3 ≤ |(Cosmographia.slower2 app).m_view3d.timeScale| ∧
      |(Cosmographia.slower2 app).m_view3d.timeScale| ≤ 1.0e7) ∧
    (1.0e-3 ≤ |(Cosmographia.reverseTime app).m_view3d.timeScale| ∧
      |(Cosmographia.reverseTime app).m_view3d.timeScale| ≤ 1.0e7) := by
  refine ⟨?_, ?_, ?_, ?_, ?_⟩
  · exact (clamped_product_facts app.m_view3d.timeScale 10.0
      (Cosmographia.faster app).m_view3d.timeScale (by norm_num) rfl).1 hlo hhi
  · exact (floored_product_facts app.m_view3d.timeScale 0.1
      (Cosmographia.slower app).m_view3d.timeScale (by norm_num) (by norm_num) rfl).1 hlo hhi
  · exact (clamped_product_facts app.m_view3d.timeScale 2.0
      (Cosmographia.faster2 app).m_view3d.timeScale (by norm_num) rfl).1 hlo hhi
  · exact (floored_product_facts app.m_view3d.timeScale 0.5
      (Cosmographia.slower2 app).m_view3d.timeScale (by norm_num) (by norm_num) rfl).1 hlo hhi
  · have hrev : (Cosmographia.reverseTime app).m_view3d.timeScale =
        -app.m_view3d.timeScale := rfl
    rw [hrev, abs_neg]
    exact ⟨hlo, hhi⟩

/-- Witness of C17, at the time scale `1`. -/
theorem timeScale_range_closed_witness :
    (1.0e-3 ≤ |(Cosmographia.faster (sampleApp 1 0)).m_view3d.timeScale| ∧
      |(Cosmographia.faster (sampleApp 1 0)).m_view3d.timeScale| ≤ 1.0e7) ∧
    (1.0e-3 ≤ |(Cosmographia.slower (sampleApp 1 0)).m_view3d.timeScale| ∧
      |(Cosmographia.slower (sampleApp 1 0)).m_view3d.timeScale| ≤ 1.0e7) ∧
    (1.0e-3 ≤ |(Cosmographia.faster2 (sampleApp 1 0)).m_view3d.timeScale| ∧
      |(Cosmographia.faster2 (sampleApp 1 0)).m_view3d.timeScale| ≤ 1.0e7) ∧
    (1.0e-3 ≤ |(Cosmographia.slower2 (sampleApp 1 0)).m_view3d.timeScale| ∧
      |(Cosmographia.slower2 (sampleApp 1 0)).m_view3d.timeScale| ≤ 1.0e7) ∧
    (1.0e-3 ≤ |(Cosmographia.reverseTime (sampleApp 1 0)).m_view3d.timeScale| ∧
      |(Cosmographia.reverseTime (sampleApp 1 0)).m_view3d.timeScale| ≤ 1.0e7) :=
  timeScale_range_closed (sampleApp 1 0)
    (by norm_num [sampleApp, UniverseView.timeScale])
    (by norm_num [sampleApp, UniverseView.timeScale])

end TimeRangeTheorems
